import Mathlib

/-!
# identity-claim-operator: the reconciliation pass of `IdentityClaimReconciler`

A shallow embedding of `internal/controller/identityclaim_controller.go` and of
the types of `api/v1alpha1/identityclaim_types.go`.

* The object store (claims, certificates, pods) is an explicit `World`; every
  client call of the controller is a function on it.
* A failure of a client call is injected through `Faults`, one optional error per
  call site; without a fault a call answers from the `World` (a read of a missing
  object answers NotFound).
* The wall clock is a function `clock : Nat → Time`; `clock i` is the value of the
  i-th clock reading (`metav1.Now()`, `time.Now()`, `time.Until`) of the pass.
* `Outcome.calls` is a ghost log of the client calls a pass made, in order.
* A client call answers its result together with the new store.
* Instants are integers (nanoseconds since the Unix epoch); a Go `time.Duration`
  is an integer number of nanoseconds in the int64 range.

Library behaviour the controller relies on (apimachinery label selectors,
`meta.SetStatusCondition`, controller-runtime `CreateOrUpdate`,
`SetControllerReference`, the finalizer helpers, `time.Time.Sub`) is written out
next to the controller code that calls it.
-/

namespace IdentityClaimOperator

/-! ## Time -/

/-- An instant, in nanoseconds since the Unix epoch. -/
abbrev Time := Int

/-- Go `time.Duration`: a number of nanoseconds. -/
abbrev Duration := Int

def Second : Duration := 1000000000
def Minute : Duration := 60 * Second
def Hour : Duration := 60 * Minute

/-- Largest `time.Duration` (int64 nanoseconds, about 292 years). -/
def maxDuration : Duration := 2 ^ 63 - 1

/-- Smallest `time.Duration`. -/
def minDuration : Duration := -(2 ^ 63)

/-- Go `Time.Add`. -/
def Time.Add (t : Time) (d : Duration) : Time := t + d

/-- Go `Time.Sub`: the difference `t - u`, and the maximum (or minimum) duration
when the difference does not fit a `time.Duration`. -/
def Time.Sub (t u : Time) : Duration :=
  if maxDuration < t - u then maxDuration
  else if t - u < minDuration then minDuration
  else t - u

/-- Go `Time.Before`. -/
def Time.Before (t u : Time) : Bool := decide (t < u)

/-- Go `time.Until(t)` evaluated when the clock reads `now`. -/
def Until (now t : Time) : Duration := Time.Sub t now

/-! ## Errors -/

/-- The reason carried by an API status error (`metav1.StatusReason`); `Unknown`
is also the reason of an error that is not an API status error. -/
inductive StatusReason where
  | NotFound
  | AlreadyExists
  | Conflict
  | Timeout
  | ServiceUnavailable
  | InternalError
  | Invalid
  | Unknown
deriving DecidableEq, Repr

/-- A Go `error`: what `apierrors` can tell about it and its text (`err.Error()`). -/
structure Err where
  Reason : StatusReason
  Message : String
deriving DecidableEq, Repr

/-- The function `apierrors.IsNotFound`. -/
def IsNotFound (err : Err) : Bool := decide (err.Reason = StatusReason.NotFound)

/-- The call `fmt.Errorf(text + "%w", err)`: the text is put in front, the wrapped
error keeps its reason. -/
def Errorf (text : String) (err : Err) : Err :=
  { err with Message := text ++ err.Message }

/-- A transient infrastructure error: a store conflict or a network failure. -/
def Err.transient (err : Err) : Bool :=
  decide (err.Reason = StatusReason.Conflict) || decide (err.Reason = StatusReason.Timeout)
    || decide (err.Reason = StatusReason.ServiceUnavailable)
    || decide (err.Reason = StatusReason.InternalError)

/-! ## API types (`api/v1alpha1`, `metav1`, cert-manager) -/

structure NamespacedName where
  Namespace : String
  Name : String
deriving DecidableEq, Repr

structure LabelSelectorRequirement where
  Key : String
  Operator : String
  Values : List String
deriving DecidableEq, Repr

/-- Kubernetes `metav1.LabelSelector`; the map `MatchLabels` is listed as pairs. -/
structure LabelSelector where
  MatchLabels : List (String × String)
  MatchExpressions : List LabelSelectorRequirement
deriving DecidableEq, Repr

/-- The struct `IdentityClaimSpec`: a selector and a TTL, nothing else. -/
structure IdentityClaimSpec where
  Selector : LabelSelector
  TTL : Duration
deriving DecidableEq, Repr

def PhasePending : String := "Pending"
def PhaseIssuing : String := "Issuing"
def PhaseReady : String := "Ready"
def PhaseFailed : String := "Failed"

def ConditionReady : String := "Ready"
def ConditionCertificateIssued : String := "CertificateIssued"
def ConditionPodsVerified : String := "PodsVerified"

def ConditionTrue : String := "True"
def ConditionFalse : String := "False"

/-- Kubernetes `metav1.Condition`. -/
structure Condition where
  Type_ : String
  Status : String
  ObservedGeneration : Int
  LastTransitionTime : Time
  Reason : String
  Message : String
deriving DecidableEq, Repr

/-- The struct `IdentityClaimStatus`; the unset phase is the empty string. -/
structure IdentityClaimStatus where
  Phase : String := ""
  SpiffeID : String := ""
  SecretName : String := ""
  ExpiresAt : Option Time := none
  Conditions : List Condition := []
deriving DecidableEq, Repr

/-- The struct `IdentityClaim` with the object metadata the controller reads. -/
structure IdentityClaim where
  Namespace : String
  Name : String
  UID : String
  Generation : Int
  DeletionTimestamp : Option Time
  Finalizers : List String
  Spec : IdentityClaimSpec
  Status : IdentityClaimStatus
deriving DecidableEq, Repr

def IdentityClaim.key (c : IdentityClaim) : NamespacedName := ⟨c.Namespace, c.Name⟩

structure OwnerReference where
  APIVersion : String
  Kind : String
  Name : String
  UID : String
  Controller : Bool
  BlockOwnerDeletion : Bool
deriving DecidableEq, Repr

/-- The type `cmmeta.ObjectReference`. -/
structure ObjectReference where
  Name : String
  Kind : String
  Group : String
deriving DecidableEq, Repr

structure CertificatePrivateKey where
  Algorithm : String
  Size : Int
deriving DecidableEq, Repr

def ECDSAKeyAlgorithm : String := "ECDSA"

/-- The fields of `certmanagerv1.CertificateSpec` that the controller writes. -/
structure CertificateSpec where
  SecretName : String := ""
  Duration : Option IdentityClaimOperator.Duration := none
  RenewBefore : Option IdentityClaimOperator.Duration := none
  URIs : List String := []
  CommonName : String := ""
  IssuerRef : ObjectReference := ⟨"", "", ""⟩
  PrivateKey : Option CertificatePrivateKey := none
deriving DecidableEq, Repr

structure CertificateCondition where
  Type_ : String
  Status : String
deriving DecidableEq, Repr

def CertificateConditionReady : String := "Ready"

/-- The observed state of a certificate, written by the issuance backend. -/
structure CertificateStatus where
  Conditions : List CertificateCondition := []
  NotAfter : Option Time := none
deriving DecidableEq, Repr

structure Certificate where
  Namespace : String
  Name : String
  OwnerReferences : List OwnerReference := []
  Spec : CertificateSpec := {}
  Status : CertificateStatus := {}
deriving DecidableEq, Repr

def Certificate.key (c : Certificate) : NamespacedName := ⟨c.Namespace, c.Name⟩

structure Pod where
  Namespace : String
  Name : String
  Labels : List (String × String)
deriving DecidableEq, Repr

/-- The value `ctrl.Result`. -/
structure Result where
  Requeue : Bool := false
  RequeueAfter : Duration := 0
deriving DecidableEq, Repr

/-! ## The store and its failures -/

/-- The objects of the cluster that the controller reads and writes. -/
structure World where
  claims : List IdentityClaim
  certs : List Certificate
  pods : List Pod
deriving DecidableEq, Repr

/-- The client calls of the controller. -/
inductive Op where
  | GetClaim
  | UpdateClaim
  | UpdateStatus
  | ListPods
  | CreateOrUpdateCert
  | GetCert
  | DeleteCert
deriving DecidableEq, Repr

/-- One client call of a pass and the error it answered with, if any. -/
structure Call where
  op : Op
  err : Option Err
deriving DecidableEq, Repr

/-- Injected failures, one per call site: `some e` makes the call answer `e`
without touching the store. `certUpsertGet` and `certUpsertWrite` are the read
and the write that `CreateOrUpdate` issues. -/
structure Faults where
  getClaim : Option Err := none
  updateClaim : Option Err := none
  updateStatus : Option Err := none
  listPods : Option Err := none
  certUpsertGet : Option Err := none
  certUpsertWrite : Option Err := none
  getCert : Option Err := none
  deleteCert : Option Err := none
deriving DecidableEq, Repr

def notFoundErr (kind : String) (key : NamespacedName) : Err :=
  ⟨StatusReason.NotFound, kind ++ " \"" ++ key.Name ++ "\" not found"⟩

def alreadyExistsErr (kind : String) (key : NamespacedName) : Err :=
  ⟨StatusReason.AlreadyExists, kind ++ " \"" ++ key.Name ++ "\" already exists"⟩

def findClaim (w : World) (key : NamespacedName) : Option IdentityClaim :=
  w.claims.find? (fun c => decide (c.key = key))

def findCert (w : World) (key : NamespacedName) : Option Certificate :=
  w.certs.find? (fun c => decide (c.key = key))

/-- Replace the stored claim that has the key of `c` by `c`. -/
def World.putClaim (w : World) (c : IdentityClaim) : World :=
  { w with claims := w.claims.map (fun x => if x.key = c.key then c else x) }

/-- Replace the stored certificate that has the key of `c` by `c`. -/
def World.putCert (w : World) (c : Certificate) : World :=
  { w with certs := w.certs.map (fun x => if x.key = c.key then c else x) }

def World.addCert (w : World) (c : Certificate) : World :=
  { w with certs := w.certs ++ [c] }

def World.removeCert (w : World) (key : NamespacedName) : World :=
  { w with certs := w.certs.filter (fun x => !decide (x.key = key)) }

/-- The call `r.Get(ctx, key, claim)`. -/
def getClaim (f : Faults) (w : World) (key : NamespacedName) : Except Err IdentityClaim :=
  match f.getClaim with
  | some err => .error err
  | none =>
    match findClaim w key with
    | some c => .ok c
    | none => .error (notFoundErr "identityclaims" key)

/-- The call `r.Update(ctx, claim)`: metadata and spec are written, the stored
status is kept (status is a sub-resource). It answers the stored object, which
becomes the object in memory, and the new store. -/
def updateClaim (f : Faults) (w : World) (claim : IdentityClaim) :
    Except Err (IdentityClaim × World) :=
  match f.updateClaim with
  | some err => .error err
  | none =>
    match findClaim w claim.key with
    | some stored =>
      .ok ({ claim with Status := stored.Status },
        w.putClaim { claim with Status := stored.Status })
    | none => .error (notFoundErr "identityclaims" claim.key)

/-- The call `r.Status().Update(ctx, claim)`: a full replace of the stored status,
nothing else is written. -/
def updateStatus (f : Faults) (w : World) (claim : IdentityClaim) :
    Except Err (IdentityClaim × World) :=
  match f.updateStatus with
  | some err => .error err
  | none =>
    match findClaim w claim.key with
    | some stored =>
      .ok ({ stored with Status := claim.Status },
        w.putClaim { stored with Status := claim.Status })
    | none => .error (notFoundErr "identityclaims" claim.key)

/-- The call `r.Get(ctx, key, cert)` for a certificate. -/
def getCert (f : Faults) (w : World) (key : NamespacedName) : Except Err Certificate :=
  match f.getCert with
  | some err => .error err
  | none =>
    match findCert w key with
    | some c => .ok c
    | none => .error (notFoundErr "certificates" key)

/-- The call `r.Delete(ctx, cert)`; it answers the new store. -/
def deleteCert (f : Faults) (w : World) (cert : Certificate) : Except Err World :=
  match f.deleteCert with
  | some err => .error err
  | none =>
    match findCert w cert.key with
    | some _ => .ok (w.removeCert cert.key)
    | none => .error (notFoundErr "certificates" cert.key)

/-! ## Label selectors (`k8s.io/apimachinery`) -/

/-- Split a list of characters at every occurrence of `sep` (Go `strings.Split`). -/
def splitOnChar (sep : Char) : List Char → List (List Char)
  | [] => [[]]
  | c :: cs =>
    if c = sep then [] :: splitOnChar sep cs
    else
      match splitOnChar sep cs with
      | [] => [[c]]
      | p :: ps => (c :: p) :: ps

def qualifiedNameChar (c : Char) : Bool :=
  c.isAlphanum || c = '-' || c = '_' || c = '.'

/-- The regular expression `([A-Za-z0-9][-A-Za-z0-9_.]*)?[A-Za-z0-9]`. -/
def matchesQualifiedName (s : List Char) : Bool :=
  match s.head?, s.getLast? with
  | some first, some last => first.isAlphanum && last.isAlphanum && s.all qualifiedNameChar
  | _, _ => false

def dnsLabelChar (c : Char) : Bool := c.isLower || c.isDigit

/-- The regular expression `[a-z0-9]([-a-z0-9]*[a-z0-9])?` of one DNS label. -/
def matchesDNS1123Label (s : List Char) : Bool :=
  match s.head?, s.getLast? with
  | some first, some last =>
    dnsLabelChar first && dnsLabelChar last && s.all (fun c => dnsLabelChar c || c = '-')
  | _, _ => false

/-- The check `validation.IsDNS1123Subdomain`. -/
def IsDNS1123Subdomain (s : List Char) : Bool :=
  decide (s.length ≤ 253) && (splitOnChar '.' s).all matchesDNS1123Label

/-- The check `validation.IsQualifiedName`: a name of at most 63 characters with
an optional DNS subdomain in front, separated by a slash. -/
def IsQualifiedName (value : String) : Bool :=
  match splitOnChar '/' value.toList with
  | [name] => decide (name.length ≤ 63) && matchesQualifiedName name
  | [pre, name] =>
    decide (pre ≠ []) && IsDNS1123Subdomain pre
      && decide (name.length ≤ 63) && matchesQualifiedName name
  | _ => false

/-- The check `validation.IsValidLabelValue`: empty, or at most 63 characters
matching the qualified-name expression. -/
def IsValidLabelValue (value : String) : Bool :=
  decide (value.toList.length ≤ 63)
    && (decide (value.toList = []) || matchesQualifiedName value.toList)

/-- The operators of `k8s.io/apimachinery/pkg/selection` that a label selector
compiles to. -/
inductive Operator where
  | Equals
  | In
  | NotIn
  | Exists
  | DoesNotExist
deriving DecidableEq, Repr

/-- The type `labels.Requirement`. -/
structure Requirement where
  key : String
  operator : Operator
  strValues : List String
deriving DecidableEq, Repr

/-- A compiled `labels.Selector`: the conjunction of its requirements. -/
abbrev Selector := List Requirement

/-- The constructor `labels.NewRequirement`: the key is a qualified name, the
number of values fits the operator, every value is a valid label value. The
texts of the validation errors are abbreviated. -/
def NewRequirement (key : String) (op : Operator) (vals : List String) : Except Err Requirement :=
  if !IsQualifiedName key then
    .error ⟨StatusReason.Unknown, "key: Invalid value: \"" ++ key ++ "\""⟩
  else if (op = Operator.In ∨ op = Operator.NotIn) ∧ vals.length = 0 then
    .error ⟨StatusReason.Unknown,
      "values: Invalid value: for in, notin operators, values set must not be empty"⟩
  else if op = Operator.Equals ∧ vals.length ≠ 1 then
    .error ⟨StatusReason.Unknown,
      "values: Invalid value: exact-match compatibility requires one single value"⟩
  else if (op = Operator.Exists ∨ op = Operator.DoesNotExist) ∧ vals.length ≠ 0 then
    .error ⟨StatusReason.Unknown,
      "values: Invalid value: values set must be empty for exists and does not exist"⟩
  else if !vals.all IsValidLabelValue then
    .error ⟨StatusReason.Unknown, "values: Invalid value"⟩
  else
    .ok ⟨key, op, vals⟩

def LabelSelectorOpIn : String := "In"
def LabelSelectorOpNotIn : String := "NotIn"
def LabelSelectorOpExists : String := "Exists"
def LabelSelectorOpDoesNotExist : String := "DoesNotExist"

/-- The requirements of the `MatchLabels` entries. -/
def matchLabelsRequirements : List (String × String) → Except Err (List Requirement)
  | [] => .ok []
  | (k, v) :: rest =>
    match NewRequirement k Operator.Equals [v] with
    | .error err => .error err
    | .ok r =>
      match matchLabelsRequirements rest with
      | .error err => .error err
      | .ok rs => .ok (r :: rs)

/-- The requirements of the `MatchExpressions` entries; an operator outside the
four known ones is an error. -/
def matchExpressionsRequirements : List LabelSelectorRequirement → Except Err (List Requirement)
  | [] => .ok []
  | expr :: rest =>
    let op : Option Operator :=
      if expr.Operator = LabelSelectorOpIn then some Operator.In
      else if expr.Operator = LabelSelectorOpNotIn then some Operator.NotIn
      else if expr.Operator = LabelSelectorOpExists then some Operator.Exists
      else if expr.Operator = LabelSelectorOpDoesNotExist then some Operator.DoesNotExist
      else none
    match op with
    | none =>
      .error ⟨StatusReason.Unknown,
        "\"" ++ expr.Operator ++ "\" is not a valid label selector operator"⟩
    | some op =>
      match NewRequirement expr.Key op expr.Values with
      | .error err => .error err
      | .ok r =>
        match matchExpressionsRequirements rest with
        | .error err => .error err
        | .ok rs => .ok (r :: rs)

/-- The function `metav1.LabelSelectorAsSelector`. -/
def LabelSelectorAsSelector (ps : LabelSelector) : Except Err Selector :=
  match matchLabelsRequirements ps.MatchLabels with
  | .error err => .error err
  | .ok rs1 =>
    match matchExpressionsRequirements ps.MatchExpressions with
    | .error err => .error err
    | .ok rs2 => .ok (rs1 ++ rs2)

/-- The method `Requirement.Matches` on a label set. -/
def Requirement.Matches (r : Requirement) (ls : List (String × String)) : Bool :=
  match r.operator with
  | Operator.In | Operator.Equals =>
    match ls.lookup r.key with
    | none => false
    | some v => r.strValues.contains v
  | Operator.NotIn =>
    match ls.lookup r.key with
    | none => true
    | some v => !r.strValues.contains v
  | Operator.Exists => (ls.lookup r.key).isSome
  | Operator.DoesNotExist => (ls.lookup r.key).isNone

def Selector.Matches (sel : Selector) (ls : List (String × String)) : Bool :=
  sel.all (fun r => r.Matches ls)

/-- The pods of a namespace that a compiled selector matches. -/
def matchingPods (w : World) (ns : String) (sel : Selector) : List Pod :=
  w.pods.filter (fun p => decide (p.Namespace = ns) && sel.Matches p.Labels)

/-- The call `r.List(ctx, podList, InNamespace(ns), MatchingLabelsSelector(sel))`. -/
def listPods (f : Faults) (w : World) (ns : String) (sel : Selector) : Except Err (List Pod) :=
  match f.listPods with
  | some err => .error err
  | none => .ok (matchingPods w ns sel)

/-! ## Conditions (`meta.SetStatusCondition`) -/

/-- The function `meta.FindStatusCondition`: the first entry of the type. -/
def FindStatusCondition (conditions : List Condition) (conditionType : String) : Option Condition :=
  conditions.find? (fun c => decide (c.Type_ = conditionType))

/-- Modelled from the spec: the condition ledger of section 4.4, which the
controller reaches through `meta.SetStatusCondition` of apimachinery. The first
entry of the type is updated in place: status, reason, message and observed
generation are overwritten, the transition time only when the status differs; a
type not yet present is appended. -/
def SetStatusCondition : List Condition → Condition → List Condition
  | [], newCondition => [newCondition]
  | c :: cs, newCondition =>
    if c.Type_ = newCondition.Type_ then
      { c with
        Status := newCondition.Status
        LastTransitionTime :=
          if c.Status ≠ newCondition.Status then newCondition.LastTransitionTime
          else c.LastTransitionTime
        Reason := newCondition.Reason
        Message := newCondition.Message
        ObservedGeneration := newCondition.ObservedGeneration } :: cs
    else c :: SetStatusCondition cs newCondition

/-! ## Finalizers and ownership (`controllerutil`) -/

def finalizerName : String := "identity.cluster.local/finalizer"
def trustDomain : String := "cluster.local"

def ContainsFinalizer (o : IdentityClaim) (finalizer : String) : Bool :=
  o.Finalizers.contains finalizer

def AddFinalizer (o : IdentityClaim) (finalizer : String) : IdentityClaim :=
  if o.Finalizers.contains finalizer then o
  else { o with Finalizers := o.Finalizers ++ [finalizer] }

def RemoveFinalizer (o : IdentityClaim) (finalizer : String) : IdentityClaim :=
  { o with Finalizers := o.Finalizers.filter (fun x => !decide (x = finalizer)) }

/-- The group of an `apiVersion` (`schema.ParseGroupVersion`): empty for a bare
version, the part before the slash otherwise, none with more than one slash. -/
def apiGroup (apiVersion : String) : Option String :=
  match splitOnChar '/' apiVersion.toList with
  | [_] => some ""
  | [g, _] => some (String.mk g)
  | _ => none

def referSameObject (a b : OwnerReference) : Bool :=
  match apiGroup a.APIVersion, apiGroup b.APIVersion with
  | some ga, some gb => decide (ga = gb) && decide (a.Kind = b.Kind) && decide (a.Name = b.Name)
  | _, _ => false

/-- Replace the owner reference to the same object, or append it. -/
def upsertOwnerRef (ref : OwnerReference) : List OwnerReference → List OwnerReference
  | [] => [ref]
  | r :: rs => if referSameObject r ref then ref :: rs else r :: upsertOwnerRef ref rs

/-- The controller reference to a claim, as `SetControllerReference` builds it. -/
def controllerRef (owner : IdentityClaim) : OwnerReference :=
  { APIVersion := "identity.cluster.local/v1alpha1", Kind := "IdentityClaim",
    Name := owner.Name, UID := owner.UID, Controller := true, BlockOwnerDeletion := true }

/-- The function `controllerutil.SetControllerReference(claim, cert, scheme)`: it
fails across namespaces and when the certificate is already controlled by another
object. -/
def SetControllerReference (owner : IdentityClaim) (controlled : Certificate) :
    Except Err Certificate :=
  let ref : OwnerReference := controllerRef owner
  if owner.Namespace ≠ "" ∧ controlled.Namespace = "" then
    .error ⟨StatusReason.Unknown,
      "cluster-scoped resource must not have a namespace-scoped owner"⟩
  else if owner.Namespace ≠ "" ∧ owner.Namespace ≠ controlled.Namespace then
    .error ⟨StatusReason.Unknown, "cross-namespace owner references are disallowed"⟩
  else
    match controlled.OwnerReferences.find? (fun r => r.Controller) with
    | some existing =>
      if !referSameObject existing ref then
        .error ⟨StatusReason.Unknown,
          "Object " ++ controlled.Namespace ++ "/" ++ controlled.Name
            ++ " is already owned by another " ++ existing.Kind ++ " controller "
            ++ existing.Name⟩
      else
        .ok { controlled with OwnerReferences := upsertOwnerRef ref controlled.OwnerReferences }
    | none =>
      .ok { controlled with OwnerReferences := upsertOwnerRef ref controlled.OwnerReferences }

/-- The read `c.Get(ctx, key, obj)` that `CreateOrUpdate` starts with. -/
def CreateOrUpdate.get (f : Faults) (w : World) (key : NamespacedName) :
    Except Err Certificate :=
  match f.certUpsertGet with
  | some err => .error err
  | none =>
    match findCert w key with
    | some c => .ok c
    | none => .error (notFoundErr "certificates" key)

/-- The function `controllerutil.CreateOrUpdate(ctx, r.Client, cert, mutate)`: read
the object; when it is missing, mutate the given object and create it; otherwise
mutate the stored object and update it unless nothing changed. A create or an
update never writes the status. It answers the new store. -/
def CreateOrUpdate (f : Faults) (w : World) (obj : Certificate)
    (mutate : Certificate → Except Err Certificate) : Except Err World :=
  match CreateOrUpdate.get f w obj.key with
  | .error err =>
    if !IsNotFound err then .error err
    else
      match mutate obj with
      | .error err1 => .error err1
      | .ok obj2 =>
        if obj2.key ≠ obj.key then
          .error ⟨StatusReason.Unknown,
            "MutateFn cannot mutate object name and/or object namespace"⟩
        else
          match f.certUpsertWrite with
          | some err1 => .error err1
          | none =>
            if (findCert w obj2.key).isSome then
              .error (alreadyExistsErr "certificates" obj2.key)
            else .ok (w.addCert { obj2 with Status := {} })
  | .ok existing =>
    match mutate existing with
    | .error err => .error err
    | .ok obj2 =>
      if obj2.key ≠ obj.key then
        .error ⟨StatusReason.Unknown,
          "MutateFn cannot mutate object name and/or object namespace"⟩
      else if obj2 = existing then .ok w
      else
        match f.certUpsertWrite with
        | some err => .error err
        | none =>
          match findCert w obj2.key with
          | some stored => .ok (w.putCert { obj2 with Status := stored.Status })
          | none => .error (notFoundErr "certificates" obj2.key)

/-! ## The controller (`internal/controller/identityclaim_controller.go`) -/

/-- What a pass leaves behind: the store, the log of its client calls in order,
the returned `ctrl.Result` and error, and the claim object in memory when the pass
returned (none when the claim could not be read). -/
structure Outcome where
  world : World
  calls : List Call
  result : Result
  err : Option Err
  claim : Option IdentityClaim
deriving DecidableEq, Repr

/-- The method `generateSpiffeID`. -/
def generateSpiffeID (claim : IdentityClaim) : String :=
  "spiffe://" ++ trustDomain ++ "/ns/" ++ claim.Namespace ++ "/ic/" ++ claim.Name

/-- The method `setCondition`; `now` is the value of `metav1.Now()`. -/
def setCondition (claim : IdentityClaim) (condType : String) (status : String)
    (reason message : String) (now : Time) : IdentityClaim :=
  { claim with
    Status :=
      { claim.Status with
        Conditions :=
          SetStatusCondition claim.Status.Conditions
            { Type_ := condType
              Status := status
              ObservedGeneration := claim.Generation
              Reason := reason
              Message := message
              LastTransitionTime := now } } }

/-- The method `verifyMatchingPods`: the number of matching pods or the error, and
the client calls it made (none when the selector does not compile). -/
def verifyMatchingPods (f : Faults) (w : World) (claim : IdentityClaim) :
    Except Err Nat × List Call :=
  match LabelSelectorAsSelector claim.Spec.Selector with
  | .error err => (.error (Errorf "invalid selector: " err), [])
  | .ok selector =>
    match listPods f w claim.Namespace selector with
    | .error err => (.error (Errorf "failed to list pods: " err), [⟨Op.ListPods, some err⟩])
    | .ok items => (.ok items.length, [⟨Op.ListPods, none⟩])

/-- The mutate function that `reconcileCertificate` hands to `CreateOrUpdate`. -/
def reconcileCertificate.mutate (claim : IdentityClaim) (certName : String)
    (duration : Duration) (cert : Certificate) : Except Err Certificate :=
  match SetControllerReference claim cert with
  | .error err => .error err
  | .ok cert1 =>
    .ok { cert1 with
      Spec :=
        { SecretName := certName
          Duration := some duration
          RenewBefore := some (Int.tdiv duration 3)
          URIs := [claim.Status.SpiffeID]
          CommonName := claim.Name
          IssuerRef := { Name := "selfsigned-issuer", Kind := "ClusterIssuer",
                         Group := "cert-manager.io" }
          PrivateKey := some { Algorithm := ECDSAKeyAlgorithm, Size := 256 } } }

/-- The method `reconcileCertificate`; it makes the one call `CreateOrUpdate`. -/
def reconcileCertificate (f : Faults) (w : World) (claim : IdentityClaim) : Except Err World :=
  let certName := claim.Status.SecretName
  let duration : Duration := if claim.Spec.TTL = 0 then Hour else claim.Spec.TTL
  let cert : Certificate := { Namespace := claim.Namespace, Name := certName }
  CreateOrUpdate f w cert (reconcileCertificate.mutate claim certName duration)

/-- The last part of `reconcileDelete`: remove the finalizer and persist.
`calls` are the client calls made before. -/
def reconcileDelete.release (f : Faults) (w : World) (claim : IdentityClaim)
    (calls : List Call) : Outcome :=
  let claim1 := RemoveFinalizer claim finalizerName
  match updateClaim f w claim1 with
  | .error err => ⟨w, calls ++ [⟨Op.UpdateClaim, some err⟩], {}, some err, some claim1⟩
  | .ok (claim2, w1) => ⟨w1, calls ++ [⟨Op.UpdateClaim, none⟩], {}, none, some claim2⟩

/-- The method `reconcileDelete`. -/
def reconcileDelete (f : Faults) (w : World) (claim : IdentityClaim) : Outcome :=
  let certName := claim.Status.SecretName
  if certName ≠ "" then
    match getCert f w ⟨claim.Namespace, certName⟩ with
    | .ok cert =>
      match deleteCert f w cert with
      | .error err =>
        if !IsNotFound err then
          ⟨w, [⟨Op.GetCert, none⟩, ⟨Op.DeleteCert, some err⟩], {}, some err, some claim⟩
        else
          reconcileDelete.release f w claim [⟨Op.GetCert, none⟩, ⟨Op.DeleteCert, some err⟩]
      | .ok w1 =>
        reconcileDelete.release f w1 claim [⟨Op.GetCert, none⟩, ⟨Op.DeleteCert, none⟩]
    | .error err => reconcileDelete.release f w claim [⟨Op.GetCert, some err⟩]
  else reconcileDelete.release f w claim []

/-- The method `Reconcile`: one pass for the claim named by `req`. Every exit
lists the client calls made on the way to it. -/
def Reconcile (f : Faults) (clock : Nat → Time) (w : World) (req : NamespacedName) : Outcome :=
  match getClaim f w req with
  | .error err =>
    if IsNotFound err then ⟨w, [⟨Op.GetClaim, some err⟩], {}, none, none⟩
    else ⟨w, [⟨Op.GetClaim, some err⟩], {}, some err, none⟩
  | .ok claim =>
    if claim.DeletionTimestamp.isSome then
      let o := reconcileDelete f w claim
      { o with calls := ⟨Op.GetClaim, none⟩ :: o.calls }
    else if !ContainsFinalizer claim finalizerName then
      let claim1 := AddFinalizer claim finalizerName
      match updateClaim f w claim1 with
      | .error err =>
        ⟨w, [⟨Op.GetClaim, none⟩, ⟨Op.UpdateClaim, some err⟩], {}, some err, some claim1⟩
      | .ok (claim2, w1) =>
        ⟨w1, [⟨Op.GetClaim, none⟩, ⟨Op.UpdateClaim, none⟩], { Requeue := true }, none,
          some claim2⟩
    else if claim.Status.Phase = "" then
      let claim1 : IdentityClaim :=
        { claim with
          Status :=
            { claim.Status with
              Phase := PhasePending
              SpiffeID := generateSpiffeID claim
              SecretName := claim.Name ++ "-identity" } }
      match updateStatus f w claim1 with
      | .error err =>
        ⟨w, [⟨Op.GetClaim, none⟩, ⟨Op.UpdateStatus, some err⟩], {}, some err, some claim1⟩
      | .ok (claim2, w1) =>
        ⟨w1, [⟨Op.GetClaim, none⟩, ⟨Op.UpdateStatus, none⟩], { Requeue := true }, none,
          some claim2⟩
    else
      match verifyMatchingPods f w claim with
      | (.error err, calls1) => ⟨w, ⟨Op.GetClaim, none⟩ :: calls1, {}, some err, some claim⟩
      | (.ok podsFound, calls1) =>
        if podsFound = 0 then
          let claim1 := setCondition claim ConditionPodsVerified ConditionFalse "NoPods"
            "No pods matching selector found" (clock 0)
          match updateStatus f w claim1 with
          | .error err =>
            ⟨w, ⟨Op.GetClaim, none⟩ :: calls1 ++ [⟨Op.UpdateStatus, some err⟩], {}, some err,
              some claim1⟩
          | .ok (claim2, w1) =>
            ⟨w1, ⟨Op.GetClaim, none⟩ :: calls1 ++ [⟨Op.UpdateStatus, none⟩],
              { RequeueAfter := 30 * Second }, none, some claim2⟩
        else
          let claim1 := setCondition claim ConditionPodsVerified ConditionTrue "PodsFound"
            ("Found " ++ toString podsFound ++ " matching pod(s)") (clock 0)
          match reconcileCertificate f w claim1 with
          | .error err =>
            let claim2 : IdentityClaim :=
              { claim1 with Status := { claim1.Status with Phase := PhaseFailed } }
            let claim3 := setCondition claim2 ConditionCertificateIssued ConditionFalse
              "CertificateFailed" err.Message (clock 1)
            match updateStatus f w claim3 with
            | .error statusErr =>
              ⟨w, ⟨Op.GetClaim, none⟩ :: calls1
                  ++ [⟨Op.CreateOrUpdateCert, some err⟩, ⟨Op.UpdateStatus, some statusErr⟩],
                {}, some err, some claim3⟩
            | .ok (claim4, w1) =>
              ⟨w1, ⟨Op.GetClaim, none⟩ :: calls1
                  ++ [⟨Op.CreateOrUpdateCert, some err⟩, ⟨Op.UpdateStatus, none⟩],
                {}, some err, some claim4⟩
          | .ok w1 =>
            match getCert f w1 ⟨claim1.Namespace, claim1.Status.SecretName⟩ with
            | .error err =>
              if !IsNotFound err then
                ⟨w1, ⟨Op.GetClaim, none⟩ :: calls1
                    ++ [⟨Op.CreateOrUpdateCert, none⟩, ⟨Op.GetCert, some err⟩],
                  {}, some err, some claim1⟩
              else
                let claim2 : IdentityClaim :=
                  { claim1 with Status := { claim1.Status with Phase := PhaseIssuing } }
                let claim3 := setCondition claim2 ConditionCertificateIssued ConditionFalse
                  "Issuing" "Waiting for certificate to be created" (clock 1)
                match updateStatus f w1 claim3 with
                | .error err1 =>
                  ⟨w1, ⟨Op.GetClaim, none⟩ :: calls1
                      ++ [⟨Op.CreateOrUpdateCert, none⟩, ⟨Op.GetCert, some err⟩,
                        ⟨Op.UpdateStatus, some err1⟩],
                    {}, some err1, some claim3⟩
                | .ok (claim4, w2) =>
                  ⟨w2, ⟨Op.GetClaim, none⟩ :: calls1
                      ++ [⟨Op.CreateOrUpdateCert, none⟩, ⟨Op.GetCert, some err⟩,
                        ⟨Op.UpdateStatus, none⟩],
                    { RequeueAfter := 5 * Second }, none, some claim4⟩
            | .ok cert =>
              let certReady : Bool :=
                cert.Status.Conditions.any (fun cond =>
                  decide (cond.Type_ = CertificateConditionReady)
                    && decide (cond.Status = ConditionTrue))
              if !certReady then
                let claim2 : IdentityClaim :=
                  { claim1 with Status := { claim1.Status with Phase := PhaseIssuing } }
                let claim3 := setCondition claim2 ConditionCertificateIssued ConditionFalse
                  "Issuing" "Certificate is being issued" (clock 1)
                match updateStatus f w1 claim3 with
                | .error err1 =>
                  ⟨w1, ⟨Op.GetClaim, none⟩ :: calls1
                      ++ [⟨Op.CreateOrUpdateCert, none⟩, ⟨Op.GetCert, none⟩,
                        ⟨Op.UpdateStatus, some err1⟩],
                    {}, some err1, some claim3⟩
                | .ok (claim4, w2) =>
                  ⟨w2, ⟨Op.GetClaim, none⟩ :: calls1
                      ++ [⟨Op.CreateOrUpdateCert, none⟩, ⟨Op.GetCert, none⟩,
                        ⟨Op.UpdateStatus, none⟩],
                    { RequeueAfter := 5 * Second }, none, some claim4⟩
              else
                let claim2 : IdentityClaim :=
                  { claim1 with
                    Status :=
                      { claim1.Status with
                        Phase := PhaseReady
                        ExpiresAt :=
                          match cert.Status.NotAfter with
                          | some t => some t
                          | none => claim1.Status.ExpiresAt } }
                let claim3 := setCondition claim2 ConditionCertificateIssued ConditionTrue
                  "Issued" "Certificate has been issued" (clock 1)
                let claim4 := setCondition claim3 ConditionReady ConditionTrue
                  "Ready" "Identity is ready for use" (clock 2)
                match updateStatus f w1 claim4 with
                | .error err1 =>
                  ⟨w1, ⟨Op.GetClaim, none⟩ :: calls1
                      ++ [⟨Op.CreateOrUpdateCert, none⟩, ⟨Op.GetCert, none⟩,
                        ⟨Op.UpdateStatus, some err1⟩],
                    {}, some err1, some claim4⟩
                | .ok (claim5, w2) =>
                  let calls2 := ⟨Op.GetClaim, none⟩ :: calls1
                    ++ [⟨Op.CreateOrUpdateCert, none⟩, ⟨Op.GetCert, none⟩,
                      ⟨Op.UpdateStatus, none⟩]
                  match claim5.Status.ExpiresAt with
                  | some expiresAt =>
                    let renewAt := Time.Add expiresAt (-10 * Minute)
                    if Time.Before (clock 3) renewAt then
                      ⟨w2, calls2, { RequeueAfter := Until (clock 4) renewAt }, none,
                        some claim5⟩
                    else ⟨w2, calls2, { RequeueAfter := 30 * Minute }, none, some claim5⟩
                  | none => ⟨w2, calls2, { RequeueAfter := 30 * Minute }, none, some claim5⟩

/-! ## Reachable stores -/

/-- The stores reachable from one whose claims are freshly created (empty
status): by a pass of `Reconcile` for any request, under any failures and any
clock, or by a change made outside the controller, which may create claims with
an empty status, edit or delete claims, pods and certificates, but leaves the
name, the namespace and the status of the claims it keeps as they are. -/
inductive Reachable : World → Prop where
  | fresh (w : World) : (∀ c ∈ w.claims, c.Status = {}) → Reachable w
  | pass (w : World) (f : Faults) (clock : Nat → Time) (req : NamespacedName) :
      Reachable w → Reachable (Reconcile f clock w req).world
  | outside (w w1 : World) :
      Reachable w →
      (∀ c1 ∈ w1.claims, c1.Status = {} ∨
        ∃ c ∈ w.claims, c.Namespace = c1.Namespace ∧ c.Name = c1.Name ∧ c.Status = c1.Status) →
      Reachable w1

/-- The identifiers of a claim are the ones derived from its name and namespace
once its phase is set. -/
def Assigned (c : IdentityClaim) : Prop :=
  c.Status.Phase ≠ "" →
    c.Status.SpiffeID = "spiffe://cluster.local/ns/" ++ c.Namespace ++ "/ic/" ++ c.Name
      ∧ c.Status.SecretName = c.Name ++ "-identity"

/-- The conditions of a claim hold an entry of the type with these values. -/
def HasCondition (cs : List Condition) (t st r m : String) (g : Int) : Prop :=
  ∃ c, FindStatusCondition cs t = some c ∧ c.Status = st ∧ c.Reason = r ∧ c.Message = m
    ∧ c.ObservedGeneration = g

/-- The conditions hold a Ready entry with status True. -/
def ReadyTrue (cs : List Condition) : Prop :=
  ∃ cond, FindStatusCondition cs ConditionReady = some cond ∧ cond.Status = ConditionTrue

/-- What `CreateOrUpdate` leaves in the store when it succeeds: only the list of
certificates differs. -/
def UpsertEffect (f : Faults) (w : World) (obj : Certificate)
    (mutate : Certificate → Except Err Certificate) (certs : List Certificate) : Prop :=
  CreateOrUpdate f w obj mutate = .ok { w with certs := certs }

/-! ## Example stores -/

def exClock : Nat → Time := fun i => 1700000000000000000 + i

def exRequest : NamespacedName := ⟨"default", "demo"⟩

/-- An initialized claim: finalizer attached, phase Pending, identifiers assigned. -/
def exClaim : IdentityClaim :=
  { Namespace := "default", Name := "demo", UID := "uid-demo", Generation := 1,
    DeletionTimestamp := none, Finalizers := [finalizerName],
    Spec := { Selector := ⟨[("app", "test")], []⟩, TTL := Hour },
    Status := { Phase := PhasePending, SpiffeID := "spiffe://cluster.local/ns/default/ic/demo",
                SecretName := "demo-identity" } }

def exPod : Pod := ⟨"default", "web-0", [("app", "test")]⟩

/-- One initialized claim and one pod that its selector matches. -/
def exWorld : World := ⟨[exClaim], [], [exPod]⟩

/-- The same claim with no pod in the cluster. -/
def exWorldNoPods : World := ⟨[exClaim], [], []⟩

def exTimeout : Err :=
  ⟨StatusReason.Timeout, "Timeout: request did not complete within requested timeout"⟩

/-- A freshly created claim: no finalizer, empty status. -/
def freshClaim : IdentityClaim :=
  { Namespace := "default", Name := "demo", UID := "uid-demo", Generation := 1,
    DeletionTimestamp := none, Finalizers := [],
    Spec := { Selector := ⟨[("app", "test")], []⟩, TTL := Hour }, Status := {} }

def freshWorld : World := ⟨[freshClaim], [], [exPod]⟩

/-- The store after two passes on the fresh claim: finalizer attached, status
initialized. -/
def initializedWorld : World :=
  (Reconcile {} exClock (Reconcile {} exClock freshWorld exRequest).world exRequest).world

/-- The claim of the controller test "When selector is invalid", initialized. -/
def invalidSelectorClaim : IdentityClaim :=
  { Namespace := "default", Name := "invalid-selector-claim", UID := "uid-invalid",
    Generation := 1, DeletionTimestamp := none, Finalizers := [finalizerName],
    Spec := { Selector := ⟨[], [⟨"app", "InvalidOp", ["test"]⟩]⟩, TTL := Hour },
    Status := { Phase := PhasePending,
                SpiffeID := "spiffe://cluster.local/ns/default/ic/invalid-selector-claim",
                SecretName := "invalid-selector-claim-identity" } }

def invalidSelectorWorld : World := ⟨[invalidSelectorClaim], [], [exPod]⟩

def invalidSelectorOutcome : Outcome :=
  Reconcile {} exClock invalidSelectorWorld ⟨"default", "invalid-selector-claim"⟩

/-- The managed certificate of `exClaim`, as an earlier pass created it. -/
def exCert : Certificate :=
  { Namespace := "default", Name := "demo-identity",
    OwnerReferences :=
      [{ APIVersion := "identity.cluster.local/v1alpha1", Kind := "IdentityClaim",
         Name := "demo", UID := "uid-demo", Controller := true, BlockOwnerDeletion := true }],
    Spec :=
      { SecretName := "demo-identity", Duration := some Hour, RenewBefore := some (20 * Minute),
        URIs := ["spiffe://cluster.local/ns/default/ic/demo"], CommonName := "demo",
        IssuerRef := ⟨"selfsigned-issuer", "ClusterIssuer", "cert-manager.io"⟩,
        PrivateKey := some ⟨ECDSAKeyAlgorithm, 256⟩ },
    Status := {} }

/-- The certificate of `exClaim` once issued: Ready is True and it expires one
hour after the instant of `exClock`. -/
def readyCert : Certificate :=
  { exCert with
    Status := { Conditions := [⟨"Ready", "True"⟩], NotAfter := some 1700003600000000000 } }

/-- The initialized claim, a matching pod and the certificate before the issuer
has answered. -/
def issuingWorld : World := ⟨[exClaim], [exCert], [exPod]⟩

/-- The initialized claim, a matching pod and the issued certificate. -/
def readyWorld : World := ⟨[exClaim], [readyCert], [exPod]⟩

/-- The claim as the pass on `readyWorld` persists it. -/
def readyClaim : IdentityClaim :=
  { exClaim with
    Status :=
      { Phase := PhaseReady, SpiffeID := "spiffe://cluster.local/ns/default/ic/demo",
        SecretName := "demo-identity", ExpiresAt := some 1700003600000000000,
        Conditions :=
          [{ Type_ := ConditionPodsVerified, Status := ConditionTrue, ObservedGeneration := 1,
             LastTransitionTime := 1700000000000000000, Reason := "PodsFound",
             Message := "Found 1 matching pod(s)" },
           { Type_ := ConditionCertificateIssued, Status := ConditionTrue,
             ObservedGeneration := 1, LastTransitionTime := 1700000000000000001,
             Reason := "Issued", Message := "Certificate has been issued" },
           { Type_ := ConditionReady, Status := ConditionTrue, ObservedGeneration := 1,
             LastTransitionTime := 1700000000000000002, Reason := "Ready",
             Message := "Identity is ready for use" }] } }

/-- The store that the pass on `readyWorld` leaves: the claim is Ready. -/
def issuedWorld : World := ⟨[readyClaim], [readyCert], [exPod]⟩

/-- A later clock: one minute after `exClock`. -/
def laterClock : Nat → Time := fun i => 1700000060000000000 + i

/-- A claim that was Ready before: its status still holds the expiry of the
certificate issued then. -/
def staleClaim : IdentityClaim :=
  { readyClaim with Status := { readyClaim.Status with ExpiresAt := some 1690000000000000000 } }

/-- The certificate reports Ready but no expiry. -/
def noExpiryCert : Certificate :=
  { exCert with Status := { Conditions := [⟨"Ready", "True"⟩], NotAfter := none } }

def noExpiryWorld : World := ⟨[staleClaim], [noExpiryCert], [exPod]⟩

def noExpiryOutcome : Outcome := Reconcile {} exClock noExpiryWorld exRequest

/-- A clock that reads the same instant at every read of the pass. -/
def fixedClock : Nat → Time := fun _ => 1700000000000000000

/-- The certificate of `exClaim` issued with an expiry about 326 years after the
instant of `fixedClock`. -/
def farFutureCert : Certificate :=
  { exCert with
    Status := { Conditions := [⟨"Ready", "True"⟩], NotAfter := some 12000000000000000000 } }

def farFutureWorld : World := ⟨[exClaim], [farFutureCert], [exPod]⟩

def farFutureOutcome : Outcome := Reconcile {} fixedClock farFutureWorld exRequest

/-- A clock whose reads up to the comparison give an instant 5 ns before the
renewal instant of `readyCert`, and whose later reads one 5 ns after it. -/
def raceClock : Nat → Time :=
  fun i => if i < 4 then 1700002999999999995 else 1700003000000000005

def raceOutcome : Outcome := Reconcile {} raceClock readyWorld exRequest

/-- The claim `exClaim` marked for deletion, its certificate still in the store. -/
def deletingClaim : IdentityClaim :=
  { exClaim with DeletionTimestamp := some 1700000000000000000 }

def deletingWorld : World := ⟨[deletingClaim], [exCert], [exPod]⟩

/-- A deletion pass in which the read of the certificate times out. -/
def deletingOutcome : Outcome :=
  Reconcile { getCert := some exTimeout } exClock deletingWorld exRequest

/-- The issuer that the controller test "When custom issuerRef is specified" asks
for in `Spec.IssuerRef`, a field that `IdentityClaimSpec` does not have. -/
def customIssuerRequested : ObjectReference := ⟨"my-custom-issuer", "Issuer", "cert-manager.io"⟩

/-- The claim of the controller test "When custom issuerRef is specified",
initialized, with what `IdentityClaimSpec` can hold of it: the selector and the
TTL. -/
def customIssuerClaim : IdentityClaim :=
  { Namespace := "default", Name := "custom-issuer-claim", UID := "uid-custom",
    Generation := 1, DeletionTimestamp := none, Finalizers := [finalizerName],
    Spec := { Selector := ⟨[("app", "test")], []⟩, TTL := Hour },
    Status := { Phase := PhasePending,
                SpiffeID := "spiffe://cluster.local/ns/default/ic/custom-issuer-claim",
                SecretName := "custom-issuer-claim-identity" } }

def customIssuerWorld : World := ⟨[customIssuerClaim], [], [exPod]⟩

def customIssuerOutcome : Outcome :=
  Reconcile {} exClock customIssuerWorld ⟨"default", "custom-issuer-claim"⟩

/-- The store that `reconcileCertificate` leaves for the claim of that test. -/
def customIssuerStore : World :=
  match reconcileCertificate {} customIssuerWorld customIssuerClaim with
  | .ok w1 => w1
  | .error _ => customIssuerWorld

/-- A pass in which the write of `CreateOrUpdate` times out. -/
def upsertTimeoutOutcome : Outcome :=
  Reconcile { certUpsertWrite := some exTimeout } exClock exWorld exRequest

/-- A pass in which the write of `CreateOrUpdate` times out and the status update
is refused as well. -/
def upsertAndStatusFailOutcome : Outcome :=
  Reconcile { certUpsertWrite := some exTimeout,
              updateStatus := some ⟨StatusReason.Conflict, "the object has been modified"⟩ }
    exClock exWorld exRequest

/-- A pass with no matching pod in which the status update times out. -/
def statusTimeoutOutcome : Outcome :=
  Reconcile { updateStatus := some exTimeout } exClock exWorldNoPods exRequest

/-! # Theorems -/

/-! ## Facts about the store and the client calls -/

theorem transient_not_notFound {e : Err} (h : e.transient = true) : IsNotFound e = false := by
  cases e with
  | mk r m => cases r <;> simp_all [Err.transient, IsNotFound]

theorem findClaim_key {w : World} {k : NamespacedName} {c : IdentityClaim}
    (h : findClaim w k = some c) : c.key = k := by
  unfold findClaim at h
  have := List.find?_some h
  simpa using this

theorem findCert_key {w : World} {k : NamespacedName} {c : Certificate}
    (h : findCert w k = some c) : c.key = k := by
  unfold findCert at h
  have := List.find?_some h
  simpa using this

theorem findClaim_mem {w : World} {k : NamespacedName} {c : IdentityClaim}
    (h : findClaim w k = some c) : c ∈ w.claims := by
  unfold findClaim at h
  exact List.mem_of_find?_eq_some h

/-- Looking a key up after every object with the key of `c` was replaced by `c`. -/
theorem find_map_replace {α : Type} (key : α → NamespacedName) (l : List α) (c : α)
    (k : NamespacedName) :
    (l.map (fun y => if key y = key c then c else y)).find? (fun y => decide (key y = k))
      = if key c = k then (if (l.find? (fun y => decide (key y = k))).isSome then some c else none)
        else l.find? (fun y => decide (key y = k)) := by
  induction l with
  | nil => simp
  | cons a t ih =>
    rw [List.map_cons, List.find?_cons, List.find?_cons]
    by_cases hac : key a = key c
    · rw [if_pos hac]
      by_cases hck : key c = k
      · have hak : key a = k := hac.trans hck
        simp only [hck, hak, decide_True, if_true, Option.isSome_some]
      · have hak : ¬ key a = k := by rw [hac]; exact hck
        simp only [hck, hak, if_false, decide_False] at ih ⊢
        exact ih
    · rw [if_neg hac]
      by_cases hak : key a = k
      · have hck : ¬ key c = k := by rw [← hak]; exact fun h => hac h.symm
        simp only [hak, hck, decide_True, if_false]
      · simp only [hak, decide_False] at ih ⊢
        exact ih

@[simp]
theorem findClaim_putClaim (w : World) (c : IdentityClaim) (k : NamespacedName) :
    findClaim (w.putClaim c) k
      = if c.key = k then (if (findClaim w k).isSome then some c else none)
        else findClaim w k := by
  unfold findClaim World.putClaim
  exact find_map_replace IdentityClaim.key w.claims c k

@[simp]
theorem findCert_putCert (w : World) (c : Certificate) (k : NamespacedName) :
    findCert (w.putCert c) k
      = if c.key = k then (if (findCert w k).isSome then some c else none)
        else findCert w k := by
  unfold findCert World.putCert
  exact find_map_replace Certificate.key w.certs c k

@[simp]
theorem findClaim_certs (w : World) (cs : List Certificate) (k : NamespacedName) :
    findClaim { w with certs := cs } k = findClaim w k := rfl

@[simp]
theorem findClaim_removeCert (w : World) (k1 k : NamespacedName) :
    findClaim (w.removeCert k1) k = findClaim w k := rfl

@[simp]
theorem findCert_putClaim (w : World) (c : IdentityClaim) (k : NamespacedName) :
    findCert (w.putClaim c) k = findCert w k := rfl

@[simp]
theorem getClaim_ok_iff {f : Faults} {w : World} {k : NamespacedName}
    {c : IdentityClaim} :
    getClaim f w k = .ok c ↔ f.getClaim = none ∧ findClaim w k = some c ∧ c.key = k := by
  unfold getClaim
  cases f.getClaim with
  | some e => simp
  | none =>
    cases hfind : findClaim w k with
    | none => simp
    | some x =>
      simp only [Except.ok.injEq, Option.some.injEq, true_and]
      constructor
      · rintro rfl; exact ⟨rfl, findClaim_key hfind⟩
      · rintro ⟨h, _⟩; exact h

@[simp]
theorem getCert_ok_iff {f : Faults} {w : World} {k : NamespacedName}
    {c : Certificate} :
    getCert f w k = .ok c ↔ f.getCert = none ∧ findCert w k = some c ∧ c.key = k := by
  unfold getCert
  cases f.getCert with
  | some e => simp
  | none =>
    cases hfind : findCert w k with
    | none => simp
    | some x =>
      simp only [Except.ok.injEq, Option.some.injEq, true_and]
      constructor
      · rintro rfl; exact ⟨rfl, findCert_key hfind⟩
      · rintro ⟨h, _⟩; exact h

@[simp]
theorem updateStatus_ok_iff {f : Faults} {w w1 : World} {c c1 : IdentityClaim} :
    updateStatus f w c = .ok (c1, w1) ↔
      f.updateStatus = none ∧ ∃ stored, findClaim w c.key = some stored
        ∧ stored.key = c.key ∧ c1 = { stored with Status := c.Status }
        ∧ w1 = w.putClaim { stored with Status := c.Status } := by
  unfold updateStatus
  cases f.updateStatus with
  | some e => simp
  | none =>
    cases hfind : findClaim w c.key with
    | none => simp
    | some x =>
      simp only [Except.ok.injEq, Prod.mk.injEq, Option.some.injEq, true_and, exists_eq_left']
      constructor
      · rintro ⟨rfl, rfl⟩; exact ⟨findClaim_key hfind, rfl, rfl⟩
      · rintro ⟨_, rfl, rfl⟩; exact ⟨rfl, rfl⟩

@[simp]
theorem updateClaim_ok_iff {f : Faults} {w w1 : World} {c c1 : IdentityClaim} :
    updateClaim f w c = .ok (c1, w1) ↔
      f.updateClaim = none ∧ ∃ stored, findClaim w c.key = some stored
        ∧ stored.key = c.key ∧ c1 = { c with Status := stored.Status }
        ∧ w1 = w.putClaim { c with Status := stored.Status } := by
  unfold updateClaim
  cases f.updateClaim with
  | some e => simp
  | none =>
    cases hfind : findClaim w c.key with
    | none => simp
    | some x =>
      simp only [Except.ok.injEq, Prod.mk.injEq, Option.some.injEq, true_and, exists_eq_left']
      constructor
      · rintro ⟨rfl, rfl⟩; exact ⟨findClaim_key hfind, rfl, rfl⟩
      · rintro ⟨_, rfl, rfl⟩; exact ⟨rfl, rfl⟩

@[simp]
theorem deleteCert_ok_iff {f : Faults} {w w1 : World} {c : Certificate} :
    deleteCert f w c = .ok w1 ↔
      f.deleteCert = none ∧ (findCert w c.key).isSome = true ∧ w1 = w.removeCert c.key := by
  unfold deleteCert
  cases f.deleteCert with
  | some e => simp
  | none =>
    cases hfind : findCert w c.key with
    | none => simp
    | some x =>
      simp only [Except.ok.injEq, Option.isSome_some, true_and]
      exact eq_comm

@[simp]
theorem verifyMatchingPods_ok_iff {f : Faults} {w : World} {c : IdentityClaim}
    {n : Nat} {cs : List Call} :
    verifyMatchingPods f w c = (.ok n, cs) ↔
      ∃ sel, LabelSelectorAsSelector c.Spec.Selector = .ok sel ∧ f.listPods = none
        ∧ n = (matchingPods w c.Namespace sel).length ∧ cs = [⟨Op.ListPods, none⟩] := by
  unfold verifyMatchingPods listPods
  cases LabelSelectorAsSelector c.Spec.Selector with
  | error e => simp
  | ok sel =>
    cases f.listPods with
    | some e => simp
    | none =>
      simp only [Prod.mk.injEq, Except.ok.injEq, exists_eq_left', true_and]
      constructor
      · rintro ⟨rfl, rfl⟩; exact ⟨rfl, rfl⟩
      · rintro ⟨rfl, rfl⟩; exact ⟨rfl, rfl⟩

@[simp]
theorem verifyMatchingPods_error_iff {f : Faults} {w : World} {c : IdentityClaim}
    {e : Err} {cs : List Call} :
    verifyMatchingPods f w c = (.error e, cs) ↔
      (∃ e0, LabelSelectorAsSelector c.Spec.Selector = .error e0
          ∧ e = Errorf "invalid selector: " e0 ∧ cs = [])
      ∨ (∃ sel e0, LabelSelectorAsSelector c.Spec.Selector = .ok sel ∧ f.listPods = some e0
          ∧ e = Errorf "failed to list pods: " e0 ∧ cs = [⟨Op.ListPods, some e0⟩]) := by
  unfold verifyMatchingPods listPods
  cases LabelSelectorAsSelector c.Spec.Selector with
  | error e1 =>
    constructor
    · intro h
      simp only [Prod.mk.injEq, Except.error.injEq] at h
      exact Or.inl ⟨e1, rfl, h.1.symm, h.2.symm⟩
    · rintro (⟨e0, h0, rfl, rfl⟩ | ⟨sel, e0, h0, _⟩)
      · cases h0; rfl
      · cases h0
  | ok sel =>
    cases f.listPods with
    | some e1 =>
      constructor
      · intro h
        simp only [Prod.mk.injEq, Except.error.injEq] at h
        exact Or.inr ⟨sel, e1, rfl, rfl, h.1.symm, h.2.symm⟩
      · rintro (⟨e0, h0, _⟩ | ⟨sel1, e0, _, h1, rfl, rfl⟩)
        · cases h0
        · cases h1; rfl
    | none => simp

/-- A successful `reconcileCertificate` changes the certificates only. -/
@[simp]
theorem reconcileCertificate_ok_iff {f : Faults} {w w1 : World} {c : IdentityClaim} :
    reconcileCertificate f w c = .ok w1 ↔
      ∃ certs, w1 = { w with certs := certs }
        ∧ UpsertEffect f w { Namespace := c.Namespace, Name := c.Status.SecretName }
            (reconcileCertificate.mutate c c.Status.SecretName
              (if c.Spec.TTL = 0 then Hour else c.Spec.TTL)) certs := by
  unfold UpsertEffect
  constructor
  · intro h
    refine ⟨w1.certs, ?_, ?_⟩
    · unfold reconcileCertificate CreateOrUpdate at h
      dsimp only at h
      repeat' split at h
      all_goals first
        | (simp at h; done)
        | (simp only [Except.ok.injEq] at h; subst h; rfl)
    · have hw : ({ w with certs := w1.certs } : World) = w1 := by
        unfold reconcileCertificate CreateOrUpdate at h
        dsimp only at h
        repeat' split at h
        all_goals first
          | (simp at h; done)
          | (simp only [Except.ok.injEq] at h; subst h; rfl)
      rw [hw]; exact h
  · rintro ⟨certs, rfl, h⟩
    exact h

@[simp]
theorem setCondition_Namespace (c : IdentityClaim) (t st r m : String) (now : Time) :
    (setCondition c t st r m now).Namespace = c.Namespace := rfl

@[simp]
theorem setCondition_Name (c : IdentityClaim) (t st r m : String) (now : Time) :
    (setCondition c t st r m now).Name = c.Name := rfl

@[simp]
theorem setCondition_key (c : IdentityClaim) (t st r m : String) (now : Time) :
    (setCondition c t st r m now).key = c.key := rfl

@[simp]
theorem setCondition_Generation (c : IdentityClaim) (t st r m : String) (now : Time) :
    (setCondition c t st r m now).Generation = c.Generation := rfl

@[simp]
theorem setCondition_Spec (c : IdentityClaim) (t st r m : String) (now : Time) :
    (setCondition c t st r m now).Spec = c.Spec := rfl

@[simp]
theorem setCondition_Phase (c : IdentityClaim) (t st r m : String) (now : Time) :
    (setCondition c t st r m now).Status.Phase = c.Status.Phase := rfl

@[simp]
theorem setCondition_SecretName (c : IdentityClaim) (t st r m : String) (now : Time) :
    (setCondition c t st r m now).Status.SecretName = c.Status.SecretName := rfl

@[simp]
theorem setCondition_SpiffeID (c : IdentityClaim) (t st r m : String) (now : Time) :
    (setCondition c t st r m now).Status.SpiffeID = c.Status.SpiffeID := rfl

@[simp]
theorem setCondition_ExpiresAt (c : IdentityClaim) (t st r m : String) (now : Time) :
    (setCondition c t st r m now).Status.ExpiresAt = c.Status.ExpiresAt := rfl

@[simp]
theorem AddFinalizer_Status (c : IdentityClaim) (x : String) :
    (AddFinalizer c x).Status = c.Status := by
  unfold AddFinalizer; split <;> rfl

@[simp]
theorem AddFinalizer_key (c : IdentityClaim) (x : String) :
    (AddFinalizer c x).key = c.key := by
  unfold AddFinalizer; split <;> rfl

@[simp]
theorem RemoveFinalizer_Status (c : IdentityClaim) (x : String) :
    (RemoveFinalizer c x).Status = c.Status := rfl

@[simp]
theorem RemoveFinalizer_key (c : IdentityClaim) (x : String) :
    (RemoveFinalizer c x).key = c.key := rfl

@[simp]
theorem key_with_Status (c : IdentityClaim) (s : IdentityClaimStatus) :
    ({ c with Status := s } : IdentityClaim).key = c.key := rfl

theorem phase_consts : PhasePending ≠ PhaseFailed ∧ PhaseIssuing ≠ PhaseFailed
    ∧ PhaseReady ≠ PhaseFailed := by decide

/-- What a finalization pass does, whatever the outcome of its calls: a failed
call other than the read of the certificate is returned as the error, no status
is written, and the certificate is never created or updated. -/
theorem reconcileDelete_spec (f : Faults) (w : World) (claim : IdentityClaim)
    (hst : findClaim w claim.key = some claim) :
    (∀ op e, ⟨op, some e⟩ ∈ (reconcileDelete f w claim).calls → IsNotFound e = false →
        op ≠ Op.GetCert → (reconcileDelete f w claim).err ≠ none)
      ∧ (∀ c1, (reconcileDelete f w claim).claim = some c1 → c1.Status = claim.Status)
      ∧ (∀ k c1, findClaim (reconcileDelete f w claim).world k = some c1 →
          ∃ c0, findClaim w k = some c0 ∧ c1.Status = c0.Status)
      ∧ (∀ op e, ⟨op, e⟩ ∈ (reconcileDelete f w claim).calls →
          op = Op.GetCert ∨ op = Op.DeleteCert ∨ op = Op.UpdateClaim) := by
  generalize ho : reconcileDelete f w claim = o at *
  unfold reconcileDelete reconcileDelete.release at ho
  dsimp only at ho
  repeat' split at ho
  all_goals subst ho
  all_goals first | (simp_all; done) | (simp_all; aesop)

/-! ## C1 -/

/-- C1, evaluated at the claim of the controller test "When selector is invalid"
(operator InvalidOp), already initialized: the pass returns the selector error,
but it makes no call after the read of the claim, so nothing is persisted; the
phase stays Pending, not Failed, and no PodsVerified condition is recorded. -/
theorem Reconcile_invalid_selector_only_returns_error :
    invalidSelectorOutcome.err
        = some ⟨StatusReason.Unknown,
            "invalid selector: \"InvalidOp\" is not a valid label selector operator"⟩
      ∧ invalidSelectorOutcome.calls = [⟨Op.GetClaim, none⟩]
      ∧ invalidSelectorOutcome.world = invalidSelectorWorld
      ∧ invalidSelectorOutcome.claim = some invalidSelectorClaim
      ∧ invalidSelectorClaim.Status.Phase = PhasePending
      ∧ FindStatusCondition invalidSelectorClaim.Status.Conditions ConditionPodsVerified = none := by
  decide

/-! ## C2 -/

/-- C2, evaluated at a claim pending deletion whose certificate exists while the
read of the certificate times out: the pass skips the delete, removes the
finalizer, persists the claim and returns no error, and the certificate is still
in the store. -/
theorem reconcileDelete_failed_read_releases_finalizer :
    deletingOutcome.err = none
      ∧ deletingOutcome.calls
          = [⟨Op.GetClaim, none⟩, ⟨Op.GetCert, some exTimeout⟩, ⟨Op.UpdateClaim, none⟩]
      ∧ findClaim deletingWorld exRequest = some deletingClaim
      ∧ ContainsFinalizer deletingClaim finalizerName = true
      ∧ findClaim deletingOutcome.world exRequest = some { deletingClaim with Finalizers := [] }
      ∧ findCert deletingOutcome.world ⟨"default", "demo-identity"⟩ = some exCert := by
  decide

/-! ## C4 -/

/-- C4, counterexample: the write of `CreateOrUpdate` fails with a timeout, a
transient error; the pass returns it, and it also records the phase Failed, which
was Pending before the pass. -/
theorem Reconcile_upsert_timeout_sets_Failed :
    exTimeout.transient = true
      ∧ upsertTimeoutOutcome.calls
          = [⟨Op.GetClaim, none⟩, ⟨Op.ListPods, none⟩,
              ⟨Op.CreateOrUpdateCert, some exTimeout⟩, ⟨Op.UpdateStatus, none⟩]
      ∧ upsertTimeoutOutcome.err = some exTimeout
      ∧ (findClaim exWorld exRequest).map (fun c => c.Status.Phase) = some PhasePending
      ∧ (findClaim upsertTimeoutOutcome.world exRequest).map (fun c => c.Status.Phase)
          = some PhaseFailed := by
  decide

set_option maxHeartbeats 1000000 in
/-- C4, as amended: in every pass of Reconcile in which a client call other than
the certificate read of the finalization handler fails with a transient error,
the pass returns a non-nil error; and whenever a pass turns the phase of the claim
into Failed, in the store or in memory, the certificate create-or-update call
failed in that pass. -/
theorem Reconcile_transient_failure (f : Faults) (clock : Nat → Time) (w : World)
    (req : NamespacedName) (op : Op) (e : Err)
    (hcall : ⟨op, some e⟩ ∈ (Reconcile f clock w req).calls)
    (ht : e.transient = true)
    (hread : op = Op.GetCert → ∀ c, findClaim w req = some c → c.DeletionTimestamp = none) :
    (Reconcile f clock w req).err ≠ none
      ∧ (∀ c c1, findClaim w req = some c →
          (findClaim (Reconcile f clock w req).world req = some c1
            ∨ (Reconcile f clock w req).claim = some c1) →
          c.Status.Phase ≠ PhaseFailed → c1.Status.Phase = PhaseFailed →
          ∃ e1, ⟨Op.CreateOrUpdateCert, some e1⟩ ∈ (Reconcile f clock w req).calls) := by
  have hnf := transient_not_notFound ht
  have hp := phase_consts
  generalize ho : Reconcile f clock w req = o at *
  unfold Reconcile at ho
  dsimp only at ho
  split at ho
  · split at ho <;> subst ho <;> simp_all
  · split at ho
    · rename_i claim hget hdel
      simp only [getClaim_ok_iff] at hget
      obtain ⟨h1, h2, h3, h4⟩ := reconcileDelete_spec f w claim (by rw [hget.2.2]; exact hget.2.1)
      subst ho
      simp only [List.mem_cons, Call.mk.injEq, reduceCtorEq, and_false, false_and, false_or,
        ne_eq] at hcall ⊢
      have hop : op ≠ Op.GetCert := by
        intro hop
        have := hread hop claim hget.2.1
        simp [this] at hdel
      refine ⟨h1 op e hcall hnf hop, ?_⟩
      intro c c1 hc hc1 hph hf
      rw [hget.2.1] at hc
      cases hc
      rcases hc1 with hc1 | hc1
      · obtain ⟨c0, hc0, hst⟩ := h3 req c1 hc1
        rw [hget.2.1] at hc0
        cases hc0
        rw [hst] at hf
        exact absurd hf hph
      · rw [h2 c1 hc1] at hf
        exact absurd hf hph
    · repeat' split at ho
      all_goals subst ho
      all_goals first | (simp_all; done) | (simp_all; aesop)

/-- C4, witness: a pass with no matching pod whose status update times out. -/
theorem Reconcile_transient_failure_witness :
    (⟨Op.UpdateStatus, some exTimeout⟩
        ∈ (Reconcile { updateStatus := some exTimeout } exClock exWorldNoPods exRequest).calls
      ∧ exTimeout.transient = true)
    ∧ (Reconcile { updateStatus := some exTimeout } exClock exWorldNoPods exRequest).err ≠ none
      ∧ (∀ c c1, findClaim exWorldNoPods exRequest = some c →
          (findClaim
              (Reconcile { updateStatus := some exTimeout } exClock exWorldNoPods exRequest).world
              exRequest = some c1
            ∨ (Reconcile { updateStatus := some exTimeout } exClock exWorldNoPods exRequest).claim
              = some c1) →
          c.Status.Phase ≠ PhaseFailed → c1.Status.Phase = PhaseFailed →
          ∃ e1, ⟨Op.CreateOrUpdateCert, some e1⟩
            ∈ (Reconcile { updateStatus := some exTimeout } exClock exWorldNoPods
                exRequest).calls) :=
  ⟨⟨by decide, by decide⟩,
    Reconcile_transient_failure { updateStatus := some exTimeout } exClock exWorldNoPods
      exRequest Op.UpdateStatus exTimeout (by decide) (by decide) (by intro h; cases h)⟩

/-! ## The condition ledger -/

/-- After `SetStatusCondition` the first entry of the type carries the new status,
reason, message and observed generation. -/
theorem FindStatusCondition_SetStatusCondition (cs : List Condition) (n : Condition) :
    ∃ c, FindStatusCondition (SetStatusCondition cs n) n.Type_ = some c
      ∧ c.Type_ = n.Type_ ∧ c.Status = n.Status ∧ c.Reason = n.Reason
      ∧ c.Message = n.Message ∧ c.ObservedGeneration = n.ObservedGeneration := by
  induction cs with
  | nil => exact ⟨n, by simp [SetStatusCondition, FindStatusCondition], rfl, rfl, rfl, rfl, rfl⟩
  | cons a t ih =>
    unfold SetStatusCondition
    by_cases h : a.Type_ = n.Type_
    · simp [h, FindStatusCondition]
    · obtain ⟨c, hc, hrest⟩ := ih
      refine ⟨c, ?_, hrest⟩
      simp only [h, if_false]
      unfold FindStatusCondition at hc ⊢
      rw [List.find?_cons]
      simp only [h, decide_False]
      exact hc

/-- An entry of another type is not touched by `SetStatusCondition`. -/
theorem FindStatusCondition_SetStatusCondition_ne (cs : List Condition) (n : Condition)
    (t : String) (h : n.Type_ ≠ t) :
    FindStatusCondition (SetStatusCondition cs n) t = FindStatusCondition cs t := by
  induction cs with
  | nil =>
    simp [SetStatusCondition, FindStatusCondition, h]
  | cons a r ih =>
    unfold SetStatusCondition
    by_cases ha : a.Type_ = n.Type_
    · have hat : ¬ a.Type_ = t := by rw [ha]; exact h
      simp [ha, FindStatusCondition, hat, h]
    · simp only [ha, if_false]
      unfold FindStatusCondition at ih ⊢
      rw [List.find?_cons, List.find?_cons, ih]

@[simp]
theorem setCondition_Conditions (c : IdentityClaim) (t st r m : String) (now : Time) :
    (setCondition c t st r m now).Status.Conditions
      = SetStatusCondition c.Status.Conditions
          { Type_ := t, Status := st, ObservedGeneration := c.Generation, Reason := r,
            Message := m, LastTransitionTime := now } := rfl

/-! ## C5 -/

/-- C5: for an initialized claim (finalizer attached, phase set, not pending
deletion) whose selector compiles and matches no pod of its namespace, a pass in
which the calls succeed returns no error and asks to be run again after exactly
30 seconds; the status it persists has the phase of before the pass and a
PodsVerified condition with status False and reason NoPods. -/
theorem Reconcile_no_matching_pods (f : Faults) (clock : Nat → Time) (w : World)
    (req : NamespacedName) (claim : IdentityClaim) (sel : Selector)
    (hget : f.getClaim = none) (hlist : f.listPods = none) (hupd : f.updateStatus = none)
    (hfind : findClaim w req = some claim)
    (hdel : claim.DeletionTimestamp = none)
    (hfin : ContainsFinalizer claim finalizerName = true)
    (hphase : claim.Status.Phase ≠ "")
    (hsel : LabelSelectorAsSelector claim.Spec.Selector = .ok sel)
    (hpods : matchingPods w claim.Namespace sel = []) :
    (Reconcile f clock w req).err = none
      ∧ (Reconcile f clock w req).result = { Requeue := false, RequeueAfter := 30 * Second }
      ∧ ⟨Op.UpdateStatus, none⟩ ∈ (Reconcile f clock w req).calls
      ∧ ∃ stored, findClaim (Reconcile f clock w req).world req = some stored
          ∧ stored.Status.Phase = claim.Status.Phase
          ∧ ∃ cond, FindStatusCondition stored.Status.Conditions ConditionPodsVerified = some cond
              ∧ cond.Status = ConditionFalse ∧ cond.Reason = "NoPods" := by
  have hkey := findClaim_key hfind
  obtain ⟨cond, hcond, -, hst, hre, -, -⟩ := FindStatusCondition_SetStatusCondition
    claim.Status.Conditions
    { Type_ := ConditionPodsVerified, Status := ConditionFalse,
      ObservedGeneration := claim.Generation, Reason := "NoPods",
      Message := "No pods matching selector found", LastTransitionTime := clock 0 }
  have hg : getClaim f w req = .ok claim := getClaim_ok_iff.mpr ⟨hget, hfind, hkey⟩
  have hv : verifyMatchingPods f w claim = (.ok 0, [⟨Op.ListPods, none⟩]) :=
    verifyMatchingPods_ok_iff.mpr ⟨sel, hsel, hlist, by rw [hpods]; rfl, rfl⟩
  have hu := (updateStatus_ok_iff (f := f) (w := w)
      (c := setCondition claim ConditionPodsVerified ConditionFalse "NoPods"
        "No pods matching selector found" (clock 0))).mpr
      ⟨hupd, claim, by rw [setCondition_key, hkey]; exact hfind, rfl, rfl, rfl⟩
  unfold Reconcile
  simp only [hg, hdel, hfin, hphase, hv, hu]
  refine ⟨by simp, by simp, by simp, ?_⟩
  simp only [Option.isSome_none, Bool.false_eq_true, if_false, Bool.not_true, if_true]
  rw [findClaim_putClaim, if_pos (by exact hkey), hfind]
  exact ⟨_, rfl, rfl, cond, hcond, hst, hre⟩

/-- C5, witness: the initialized claim of the example with no pod in the cluster. -/
theorem Reconcile_no_matching_pods_witness :
    (Reconcile {} exClock exWorldNoPods exRequest).err = none
      ∧ (Reconcile {} exClock exWorldNoPods exRequest).result
          = { Requeue := false, RequeueAfter := 30 * Second }
      ∧ ⟨Op.UpdateStatus, none⟩ ∈ (Reconcile {} exClock exWorldNoPods exRequest).calls
      ∧ ∃ stored, findClaim (Reconcile {} exClock exWorldNoPods exRequest).world exRequest
            = some stored
          ∧ stored.Status.Phase = exClaim.Status.Phase
          ∧ ∃ cond, FindStatusCondition stored.Status.Conditions ConditionPodsVerified = some cond
              ∧ cond.Status = ConditionFalse ∧ cond.Reason = "NoPods" :=
  Reconcile_no_matching_pods {} exClock exWorldNoPods exRequest exClaim
    [⟨"app", Operator.Equals, ["test"]⟩] rfl rfl rfl (by decide) rfl (by decide) (by decide)
    (by rfl) (by decide)

/-! ## What a pass writes -/

theorem generateSpiffeID_eq (c : IdentityClaim) :
    generateSpiffeID c = "spiffe://cluster.local/ns/" ++ c.Namespace ++ "/ic/" ++ c.Name := by
  unfold generateSpiffeID
  have h : "spiffe://" ++ trustDomain ++ "/ns/" = "spiffe://cluster.local/ns/" := by decide
  rw [h]

theorem mem_putClaim {w : World} {c c1 : IdentityClaim} (h : c ∈ (w.putClaim c1).claims) :
    c = c1 ∨ c ∈ w.claims := by
  unfold World.putClaim at h
  simp only [List.mem_map] at h
  obtain ⟨x, hx, hxc⟩ := h
  split at hxc
  · exact Or.inl hxc.symm
  · exact Or.inr (hxc ▸ hx)

@[simp]
theorem claims_certs (w : World) (cs : List Certificate) :
    ({ w with certs := cs } : World).claims = w.claims := rfl

@[simp]
theorem claims_removeCert (w : World) (k : NamespacedName) :
    (w.removeCert k).claims = w.claims := rfl

@[simp]
theorem putClaim_certs (w : World) (cs : List Certificate) (c : IdentityClaim) :
    (({ w with certs := cs } : World).putClaim c).claims = (w.putClaim c).claims := rfl

@[simp]
theorem putClaim_removeCert (w : World) (k : NamespacedName) (c : IdentityClaim) :
    ((w.removeCert k).putClaim c).claims = (w.putClaim c).claims := rfl

@[simp]
theorem AddFinalizer_Namespace (c : IdentityClaim) (x : String) :
    (AddFinalizer c x).Namespace = c.Namespace := by
  unfold AddFinalizer; split <;> rfl

@[simp]
theorem AddFinalizer_Name (c : IdentityClaim) (x : String) :
    (AddFinalizer c x).Name = c.Name := by
  unfold AddFinalizer; split <;> rfl

@[simp]
theorem RemoveFinalizer_Namespace (c : IdentityClaim) (x : String) :
    (RemoveFinalizer c x).Namespace = c.Namespace := rfl

@[simp]
theorem RemoveFinalizer_Name (c : IdentityClaim) (x : String) :
    (RemoveFinalizer c x).Name = c.Name := rfl

/-- The claims a finalization pass leaves in the store: the ones of before, or
the ones of before with the claim in memory written back. -/
theorem reconcileDelete_world_claims (f : Faults) (w : World) (claim : IdentityClaim) :
    (reconcileDelete f w claim).world.claims = w.claims
      ∨ ∃ c1, (reconcileDelete f w claim).claim = some c1
          ∧ (reconcileDelete f w claim).world.claims = (w.putClaim c1).claims := by
  generalize ho : reconcileDelete f w claim = o at *
  unfold reconcileDelete reconcileDelete.release at ho
  dsimp only at ho
  repeat' split at ho
  all_goals subst ho
  all_goals first | (simp_all; done) | (simp_all; aesop)

theorem findClaim_congr {w1 w2 : World} (h : w1.claims = w2.claims) (k : NamespacedName) :
    findClaim w1 k = findClaim w2 k := by
  unfold findClaim
  rw [h]

set_option maxHeartbeats 1000000 in
/-- The claims a pass leaves in the store: the ones of before, or the ones of
before with the claim in memory written back. -/
theorem Reconcile_world_claims (f : Faults) (clock : Nat → Time) (w : World)
    (req : NamespacedName) :
    (Reconcile f clock w req).world.claims = w.claims
      ∨ ∃ c1, (Reconcile f clock w req).claim = some c1
          ∧ (Reconcile f clock w req).world.claims = (w.putClaim c1).claims := by
  generalize ho : Reconcile f clock w req = o at *
  unfold Reconcile at ho
  dsimp only at ho
  split at ho
  · split at ho <;> subst ho <;> simp
  · split at ho
    · subst ho
      exact reconcileDelete_world_claims f w _
    · repeat' split at ho
      all_goals subst ho
      all_goals first | (simp_all; done) | (simp_all; aesop)

@[simp]
theorem key_mk (ns n u : String) (g : Int) (d : Option Time) (fin : List String)
    (sp : IdentityClaimSpec) (st : IdentityClaimStatus) :
    (IdentityClaim.mk ns n u g d fin sp st).key = ⟨ns, n⟩ := rfl

@[simp]
theorem mk_key (c : IdentityClaim) : (⟨c.Namespace, c.Name⟩ : NamespacedName) = c.key := rfl

theorem phase_nonempty : PhasePending ≠ "" ∧ PhaseIssuing ≠ "" ∧ PhaseReady ≠ ""
    ∧ PhaseFailed ≠ "" := by decide

/-- The claim in memory after a finalization pass has the name and the status of
the claim that was read. -/
theorem reconcileDelete_claim (f : Faults) (w : World) (claim : IdentityClaim)
    (hst : findClaim w claim.key = some claim) :
    ∀ c1, (reconcileDelete f w claim).claim = some c1 →
      c1.Namespace = claim.Namespace ∧ c1.Name = claim.Name ∧ c1.Status = claim.Status := by
  generalize ho : reconcileDelete f w claim = o at *
  unfold reconcileDelete reconcileDelete.release at ho
  dsimp only at ho
  repeat' split at ho
  all_goals subst ho
  all_goals simp_all

set_option maxHeartbeats 1000000 in
/-- The claim in memory after a pass: the claim was read from the store and has
kept its name; identifiers that were assigned are kept, and a set phase stays
set; with the phase unset the status is either kept or initialized with the
derived identifiers. -/
theorem Reconcile_claim_identifiers (f : Faults) (clock : Nat → Time) (w : World)
    (req : NamespacedName) :
    ∀ c1, (Reconcile f clock w req).claim = some c1 →
      ∃ c, findClaim w req = some c ∧ c1.Namespace = c.Namespace ∧ c1.Name = c.Name
        ∧ (c.Status.Phase ≠ "" → c1.Status.Phase ≠ ""
            ∧ c1.Status.SpiffeID = c.Status.SpiffeID
            ∧ c1.Status.SecretName = c.Status.SecretName)
        ∧ (c.Status.Phase = "" → c1.Status = c.Status
            ∨ (c1.Status.Phase ≠ "" ∧ c1.Status.SpiffeID = generateSpiffeID c
              ∧ c1.Status.SecretName = c.Name ++ "-identity")) := by
  have hp := phase_nonempty
  generalize ho : Reconcile f clock w req = o at *
  unfold Reconcile at ho
  dsimp only at ho
  split at ho
  · split at ho <;> subst ho <;> simp
  · rename_i claim hget
    simp only [getClaim_ok_iff] at hget
    split at ho
    · subst ho
      intro c1 hc1
      obtain ⟨h1, h2, h3⟩ := reconcileDelete_claim f w claim
        (by rw [hget.2.2]; exact hget.2.1) c1 hc1
      refine ⟨claim, hget.2.1, h1, h2, ?_, ?_⟩
      · intro h; rw [h3]; exact ⟨h, rfl, rfl⟩
      · intro _; exact Or.inl h3
    · repeat' split at ho
      all_goals subst ho
      all_goals first | (simp_all; done) | (simp_all; aesop)

/-! ## C6 -/

/-- One pass keeps the identifiers of every stored claim as derived from its
name. -/
theorem Reconcile_preserves_Assigned (f : Faults) (clock : Nat → Time) (w : World)
    (req : NamespacedName) (hinv : ∀ c ∈ w.claims, Assigned c) :
    ∀ c ∈ (Reconcile f clock w req).world.claims, Assigned c := by
  intro c hc
  rcases Reconcile_world_claims f clock w req with h | ⟨c1, hc1, h⟩
  · rw [h] at hc; exact hinv c hc
  · rw [h] at hc
    rcases mem_putClaim hc with hcc | hm
    · subst hcc
      obtain ⟨c0, hfind, hns, hn, hset, hunset⟩ := Reconcile_claim_identifiers f clock w req c hc1
      have h0 := hinv c0 (findClaim_mem hfind)
      unfold Assigned at h0 ⊢
      intro _
      by_cases hph : c0.Status.Phase = ""
      · rcases hunset hph with hs | ⟨_, hs1, hs2⟩
        · rename_i hcp
          rw [hs] at hcp
          exact absurd hph hcp
        · rw [hs1, hs2, generateSpiffeID_eq, hns, hn]
          exact ⟨rfl, rfl⟩
      · obtain ⟨_, hs1, hs2⟩ := hset hph
        obtain ⟨h01, h02⟩ := h0 hph
        rw [hs1, hs2, h01, h02, hns, hn]
        exact ⟨rfl, rfl⟩
    · exact hinv c hm

/-- C6: in every store reachable from freshly created claims by passes of
Reconcile (and by changes from outside that leave name, namespace and status of
the claims alone), a claim whose phase is set has the spiffeId
spiffe://cluster.local/ns/NAMESPACE/ic/NAME and the secretName NAME-identity;
and a pass changes neither value of a claim whose phase is set, nor unsets the
phase. -/
theorem Reachable_identifiers (w : World) (hreach : Reachable w) :
    (∀ c ∈ w.claims, c.Status.Phase ≠ "" →
        c.Status.SpiffeID = "spiffe://cluster.local/ns/" ++ c.Namespace ++ "/ic/" ++ c.Name
          ∧ c.Status.SecretName = c.Name ++ "-identity")
      ∧ (∀ (f : Faults) (clock : Nat → Time) (req k : NamespacedName) (c c1 : IdentityClaim),
          findClaim w k = some c → c.Status.Phase ≠ "" →
          findClaim (Reconcile f clock w req).world k = some c1 →
          c1.Status.Phase ≠ "" ∧ c1.Status.SpiffeID = c.Status.SpiffeID
            ∧ c1.Status.SecretName = c.Status.SecretName) := by
  constructor
  · induction hreach with
    | fresh w h =>
      intro c hc hph
      rw [h c hc] at hph
      exact absurd rfl hph
    | pass w f clock req _ ih => exact Reconcile_preserves_Assigned f clock w req ih
    | outside w w1 _ hout ih =>
      intro c1 hc1 hph
      rcases hout c1 hc1 with h | ⟨c, hc, hns, hn, hs⟩
      · rw [h] at hph
        exact absurd rfl hph
      · have := ih c hc (by rw [hs]; exact hph)
        rw [← hs, ← hns, ← hn]
        exact this
  · intro f clock req k c c1 hfind hph hfind1
    rcases Reconcile_world_claims f clock w req with h | ⟨c2, hc2, h⟩
    · rw [findClaim_congr h k, hfind] at hfind1
      cases hfind1
      exact ⟨hph, rfl, rfl⟩
    · rw [findClaim_congr h k, findClaim_putClaim] at hfind1
      by_cases hk : c2.key = k
      · rw [if_pos hk, hfind] at hfind1
        simp only [Option.isSome_some, if_true, Option.some.injEq] at hfind1
        subst hfind1
        obtain ⟨c0, hfind0, hns, hn, hset, _⟩ := Reconcile_claim_identifiers f clock w req c2 hc2
        have hk0 : c0.key = k := by
          rw [← hk]
          unfold IdentityClaim.key
          rw [hns, hn]
        have hreq : req = k := by rw [← findClaim_key hfind0]; exact hk0
        subst hreq
        rw [hfind] at hfind0
        cases hfind0
        exact hset hph
      · rw [if_neg hk, hfind] at hfind1
        cases hfind1
        exact ⟨hph, rfl, rfl⟩

/-- C6, witness: the store after two passes on a fresh claim, where the phase is
Pending. -/
theorem Reachable_identifiers_witness :
    (Reachable initializedWorld
      ∧ (findClaim initializedWorld exRequest).map (fun c => c.Status.Phase) = some PhasePending)
    ∧ ((∀ c ∈ initializedWorld.claims, c.Status.Phase ≠ "" →
          c.Status.SpiffeID = "spiffe://cluster.local/ns/" ++ c.Namespace ++ "/ic/" ++ c.Name
            ∧ c.Status.SecretName = c.Name ++ "-identity")
      ∧ (∀ (f : Faults) (clock : Nat → Time) (req k : NamespacedName) (c c1 : IdentityClaim),
          findClaim initializedWorld k = some c → c.Status.Phase ≠ "" →
          findClaim (Reconcile f clock initializedWorld req).world k = some c1 →
          c1.Status.Phase ≠ "" ∧ c1.Status.SpiffeID = c.Status.SpiffeID
            ∧ c1.Status.SecretName = c.Status.SecretName)) :=
  ⟨⟨Reachable.pass _ {} exClock exRequest
      (Reachable.pass _ {} exClock exRequest (Reachable.fresh freshWorld (by decide))),
    by decide⟩,
   Reachable_identifiers initializedWorld
    (Reachable.pass _ {} exClock exRequest
      (Reachable.pass _ {} exClock exRequest (Reachable.fresh freshWorld (by decide))))⟩

/-! ## The certificate upsert is idempotent -/

theorem upsertOwnerRef_idem (ref : OwnerReference) (h : referSameObject ref ref = true)
    (l : List OwnerReference) :
    upsertOwnerRef ref (upsertOwnerRef ref l) = upsertOwnerRef ref l := by
  induction l with
  | nil => simp [upsertOwnerRef, h]
  | cons r rs ih =>
    cases hr : referSameObject r ref with
    | true => simp [upsertOwnerRef, hr, h]
    | false => simp [upsertOwnerRef, hr, ih]

theorem find_controller_upsertOwnerRef (ref : OwnerReference) (hc : ref.Controller = true)
    (l : List OwnerReference)
    (hl : ∀ e, l.find? (fun r => r.Controller) = some e → referSameObject e ref = true) :
    (upsertOwnerRef ref l).find? (fun r => r.Controller) = some ref := by
  induction l with
  | nil => simp [upsertOwnerRef, hc]
  | cons r rs ih =>
    cases hr : referSameObject r ref with
    | true => simp [upsertOwnerRef, hr, hc]
    | false =>
      have hrc : r.Controller = false := by
        cases hcr : r.Controller with
        | false => rfl
        | true =>
          have := hl r (by simp [List.find?, hcr])
          rw [hr] at this
          exact absurd this (by decide)
      have ih2 := ih (by
        intro e he
        apply hl e
        rw [List.find?_cons]
        simp only [hrc]
        exact he)
      simp only [upsertOwnerRef, hr, Bool.false_eq_true, if_false]
      rw [List.find?_cons]
      simp only [hrc]
      exact ih2

theorem controllerRef_same (owner : IdentityClaim) :
    referSameObject (controllerRef owner) (controllerRef owner) = true := by
  have h : apiGroup "identity.cluster.local/v1alpha1" = some "identity.cluster.local" := by
    decide
  unfold referSameObject controllerRef
  simp [h]

/-- When `SetControllerReference` succeeds. -/
theorem SetControllerReference_ok_iff (owner : IdentityClaim) (x y : Certificate) :
    SetControllerReference owner x = .ok y ↔
      ¬ (owner.Namespace ≠ "" ∧ x.Namespace = "")
      ∧ ¬ (owner.Namespace ≠ "" ∧ owner.Namespace ≠ x.Namespace)
      ∧ (∀ e, x.OwnerReferences.find? (fun r => r.Controller) = some e →
          referSameObject e (controllerRef owner) = true)
      ∧ y = { x with OwnerReferences := upsertOwnerRef (controllerRef owner) x.OwnerReferences } := by
  unfold SetControllerReference
  dsimp only
  by_cases h1 : owner.Namespace ≠ "" ∧ x.Namespace = ""
  · simp [h1]
  · by_cases h2 : owner.Namespace ≠ "" ∧ owner.Namespace ≠ x.Namespace
    · rw [if_neg h1, if_pos h2]
      simp [h2]
    · rw [if_neg h1, if_neg h2]
      cases hf : x.OwnerReferences.find? (fun r => r.Controller) with
      | none =>
        have h1a := h1
        have h2a := h2
        simp only [Except.ok.injEq]
        constructor
        · intro h; exact ⟨h1a, h2a, (by intro e he; cases he), h.symm⟩
        · intro h; exact h.2.2.2.symm
      | some e =>
        cases hr : referSameObject e (controllerRef owner) with
        | true =>
          have h1a := h1
          have h2a := h2
          simp only [hr, Bool.not_true, Bool.false_eq_true, if_false, Except.ok.injEq,
            Option.some.injEq]
          constructor
          · intro h
            exact ⟨h1a, h2a, (by intro e1 he1; rw [← he1]; exact hr), h.symm⟩
          · intro h; exact h.2.2.2.symm
        | false =>
          simp only [hr, Bool.not_false, if_true, Option.some.injEq, false_iff, reduceCtorEq]
          intro h
          have := h.2.2.1 e rfl
          rw [hr] at this
          cases this

/-- Running the mutate function of `reconcileCertificate` on its own result, with
any status, changes nothing. -/
theorem mutate_idem (claim : IdentityClaim) (certName : String) (duration : Duration)
    (x y : Certificate) (s : CertificateStatus)
    (h : reconcileCertificate.mutate claim certName duration x = .ok y) :
    reconcileCertificate.mutate claim certName duration { y with Status := s }
      = .ok { y with Status := s } := by
  unfold reconcileCertificate.mutate at h ⊢
  cases hx : SetControllerReference claim x with
  | error e => rw [hx] at h; cases h
  | ok x1 =>
    rw [hx] at h
    simp only [Except.ok.injEq] at h
    obtain ⟨h1, h2, h3, h4⟩ := (SetControllerReference_ok_iff claim x x1).mp hx
    subst h4
    subst h
    have hy : SetControllerReference claim
        { Namespace := x.Namespace, Name := x.Name,
          OwnerReferences := upsertOwnerRef (controllerRef claim) x.OwnerReferences,
          Spec :=
            { SecretName := certName, Duration := some duration,
              RenewBefore := some (Int.tdiv duration 3), URIs := [claim.Status.SpiffeID],
              CommonName := claim.Name,
              IssuerRef := { Name := "selfsigned-issuer", Kind := "ClusterIssuer",
                             Group := "cert-manager.io" },
              PrivateKey := some { Algorithm := ECDSAKeyAlgorithm, Size := 256 } },
          Status := s }
        = .ok
        { Namespace := x.Namespace, Name := x.Name,
          OwnerReferences := upsertOwnerRef (controllerRef claim) x.OwnerReferences,
          Spec :=
            { SecretName := certName, Duration := some duration,
              RenewBefore := some (Int.tdiv duration 3), URIs := [claim.Status.SpiffeID],
              CommonName := claim.Name,
              IssuerRef := { Name := "selfsigned-issuer", Kind := "ClusterIssuer",
                             Group := "cert-manager.io" },
              PrivateKey := some { Algorithm := ECDSAKeyAlgorithm, Size := 256 } },
          Status := s } := by
      rw [SetControllerReference_ok_iff]
      refine ⟨h1, h2, ?_, ?_⟩
      · intro e he
        rw [find_controller_upsertOwnerRef _ rfl _ h3] at he
        cases he
        exact controllerRef_same claim
      · simp only [upsertOwnerRef_idem _ (controllerRef_same claim)]
    simp only [hy]

theorem CreateOrUpdate_get_ok_iff {f : Faults} {w : World} {k : NamespacedName}
    {c : Certificate} :
    CreateOrUpdate.get f w k = .ok c ↔
      f.certUpsertGet = none ∧ findCert w k = some c ∧ c.key = k := by
  unfold CreateOrUpdate.get
  cases f.certUpsertGet with
  | some e => simp
  | none =>
    cases hfind : findCert w k with
    | none => simp
    | some x =>
      simp only [Except.ok.injEq, Option.some.injEq, true_and]
      constructor
      · rintro rfl; exact ⟨rfl, findCert_key hfind⟩
      · rintro ⟨h, _⟩; exact h

@[simp]
theorem cert_key_mk (ns n : String) (o : List OwnerReference) (sp : CertificateSpec)
    (st : CertificateStatus) : (Certificate.mk ns n o sp st).key = ⟨ns, n⟩ := rfl

@[simp]
theorem cert_mk_key (c : Certificate) : (⟨c.Namespace, c.Name⟩ : NamespacedName) = c.key := rfl

theorem findCert_addCert (w : World) (c : Certificate) (k : NamespacedName) :
    findCert (w.addCert c) k
      = match findCert w k with
        | some x => some x
        | none => if c.key = k then some c else none := by
  unfold findCert World.addCert
  simp only [List.find?_append]
  cases h : List.find? (fun c => decide (c.key = k)) w.certs with
  | some x => simp
  | none =>
    by_cases hk : c.key = k
    · simp [hk, List.find?]
    · simp [hk, List.find?]

/-- After a successful `CreateOrUpdate` the object is in the store, and it is a
fixed point of the mutate function. -/
theorem CreateOrUpdate_result (f : Faults) (w w1 : World) (obj : Certificate)
    (mutate : Certificate → Except Err Certificate)
    (hm : ∀ x y s, mutate x = .ok y → mutate { y with Status := s } = .ok { y with Status := s })
    (h : CreateOrUpdate f w obj mutate = .ok w1) :
    ∃ x, findCert w1 obj.key = some x ∧ mutate x = .ok x := by
  unfold CreateOrUpdate at h
  repeat' split at h
  all_goals try (simp at h; done)
  all_goals simp only [Except.ok.injEq] at h
  all_goals subst h
  all_goals try simp only [CreateOrUpdate_get_ok_iff] at *
  case h_1.isFalse.h_2.isFalse.h_2.isFalse =>
    rename_i _ _ _ _ o2 hmu hkey _ _ hnone
    refine ⟨{ o2 with Status := {} }, ?_, hm _ _ _ hmu⟩
    simp only [ne_eq, not_not] at hkey
    rw [findCert_addCert, ← hkey]
    simp only [Bool.not_eq_true, Option.not_isSome, Option.isNone_iff_eq_none] at hnone
    rw [hnone]
    simp
  case h_2.h_2.isFalse.isTrue =>
    rename_i _ o1 _ o2 hmu hkey heq hget
    subst heq
    exact ⟨o2, hget.2.1, hmu⟩
  case h_2.h_2.isFalse.isFalse.h_2.h_1 =>
    rename_i _ o1 _ o2 hmu hkey hne _ hw _ c hfc hget
    refine ⟨{ o2 with Status := c.Status }, ?_, hm _ _ _ hmu⟩
    simp only [ne_eq, not_not] at hkey
    rw [findCert_putCert]
    simp [hkey, hget.2.1]

/-- A second `CreateOrUpdate` with the same mutate function, right after a
successful one, finds the object and leaves the store as it is. -/
theorem CreateOrUpdate_idem (f f2 : Faults) (w w1 : World) (obj : Certificate)
    (mutate : Certificate → Except Err Certificate)
    (hm : ∀ x y s, mutate x = .ok y → mutate { y with Status := s } = .ok { y with Status := s })
    (hf2 : f2.certUpsertGet = none)
    (h : CreateOrUpdate f w obj mutate = .ok w1) :
    CreateOrUpdate f2 w1 obj mutate = .ok w1 := by
  have key := CreateOrUpdate_result f w w1 obj mutate hm h
  obtain ⟨x, hx, hmx⟩ := key
  have hg : CreateOrUpdate.get f2 w1 obj.key = .ok x :=
    CreateOrUpdate_get_ok_iff.mpr ⟨hf2, hx, findCert_key hx⟩
  unfold CreateOrUpdate
  simp only [hg, hmx, findCert_key hx, ne_eq, not_true_eq_false, if_false, if_true]

/-! ## Repeating a condition update -/

/-- Setting a condition whose status, reason, message and observed generation the
first entry of its type already has changes nothing. -/
theorem SetStatusCondition_same (cs : List Condition) (n : Condition)
    (h : ∃ c, FindStatusCondition cs n.Type_ = some c ∧ c.Status = n.Status
      ∧ c.Reason = n.Reason ∧ c.Message = n.Message
      ∧ c.ObservedGeneration = n.ObservedGeneration) :
    SetStatusCondition cs n = cs := by
  induction cs with
  | nil =>
    obtain ⟨c, hc, _⟩ := h
    simp [FindStatusCondition] at hc
  | cons a t ih =>
    obtain ⟨c, hc, h1, h2, h3, h4⟩ := h
    unfold SetStatusCondition
    by_cases ha : a.Type_ = n.Type_
    · simp only [FindStatusCondition, List.find?_cons, ha, decide_True] at hc
      cases hc
      simp only [ha, if_true, ← h1, ← h2, ← h3, ← h4, ne_eq, not_true_eq_false, if_false]
      rw [← ha]
    · simp only [ha, if_false]
      rw [ih]
      refine ⟨c, ?_, h1, h2, h3, h4⟩
      simp only [FindStatusCondition, List.find?_cons, ha, decide_False] at hc
      exact hc

theorem HasCondition_set (cs : List Condition) (t st r m : String) (g : Int) (now : Time) :
    HasCondition
      (SetStatusCondition cs
        { Type_ := t, Status := st, ObservedGeneration := g, Reason := r, Message := m,
          LastTransitionTime := now }) t st r m g := by
  obtain ⟨c, hc, -, h1, h2, h3, h4⟩ := FindStatusCondition_SetStatusCondition cs
    { Type_ := t, Status := st, ObservedGeneration := g, Reason := r, Message := m,
      LastTransitionTime := now }
  exact ⟨c, hc, h1, h2, h3, h4⟩

theorem HasCondition_set_ne (cs : List Condition) (n : Condition) (t st r m : String) (g : Int)
    (hne : n.Type_ ≠ t) (h : HasCondition cs t st r m g) :
    HasCondition (SetStatusCondition cs n) t st r m g := by
  unfold HasCondition at h ⊢
  rw [FindStatusCondition_SetStatusCondition_ne cs n t hne]
  exact h

theorem SetStatusCondition_of_HasCondition (cs : List Condition) (t st r m : String) (g : Int)
    (now : Time) (h : HasCondition cs t st r m g) :
    SetStatusCondition cs
      { Type_ := t, Status := st, ObservedGeneration := g, Reason := r, Message := m,
        LastTransitionTime := now } = cs := by
  apply SetStatusCondition_same
  obtain ⟨c, hc, h1, h2, h3, h4⟩ := h
  exact ⟨c, hc, h1, h2, h3, h4⟩

theorem putClaim_putClaim (w : World) (c : IdentityClaim) :
    (w.putClaim c).putClaim c = w.putClaim c := by
  unfold World.putClaim
  simp only [List.map_map]
  congr 1
  apply List.map_congr_left
  intro x _
  simp only [Function.comp]
  by_cases h : x.key = c.key
  · simp [h]
  · simp [h]

/-! ## A second pass on an unchanged store -/

theorem mutate_congr (c1 c2 : IdentityClaim) (certName : String) (duration : Duration)
    (h1 : c1.Namespace = c2.Namespace) (h2 : c1.Name = c2.Name) (h3 : c1.UID = c2.UID)
    (h4 : c1.Status.SpiffeID = c2.Status.SpiffeID) :
    reconcileCertificate.mutate c1 certName duration
      = reconcileCertificate.mutate c2 certName duration := by
  funext x
  unfold reconcileCertificate.mutate SetControllerReference controllerRef
  simp only [h1, h2, h3, h4]

theorem CreateOrUpdate_putClaim (f : Faults) (w : World) (c : IdentityClaim) (obj : Certificate)
    (mutate : Certificate → Except Err Certificate) (w1 : World)
    (h : CreateOrUpdate f w obj mutate = .ok w1) :
    CreateOrUpdate f (w.putClaim c) obj mutate = .ok (w1.putClaim c) := by
  unfold CreateOrUpdate CreateOrUpdate.get at h ⊢
  simp only [findCert_putClaim]
  repeat' split at h
  all_goals first
    | (simp at h; done)
    | (simp only [Except.ok.injEq] at h; subst h; simp_all; try rfl)

theorem reconcileCertificate_again (f : Faults) (w w1 : World) (c1 c2 : IdentityClaim)
    (h1 : c2.Namespace = c1.Namespace) (h2 : c2.Name = c1.Name) (h3 : c2.UID = c1.UID)
    (h4 : c2.Status.SpiffeID = c1.Status.SpiffeID)
    (h5 : c2.Status.SecretName = c1.Status.SecretName) (h6 : c2.Spec.TTL = c1.Spec.TTL)
    (h : reconcileCertificate f w c1 = .ok w1) :
    reconcileCertificate {} (w1.putClaim c2) c2 = .ok (w1.putClaim c2) := by
  unfold reconcileCertificate at h ⊢
  dsimp only at h ⊢
  rw [h1, h5, h6, mutate_congr c2 c1 _ _ h1 h2 h3 h4]
  apply CreateOrUpdate_putClaim
  exact CreateOrUpdate_idem f {} w w1 _ _ (fun x y s hxy => mutate_idem _ _ _ x y s hxy) rfl h

theorem cond_types_ne : ConditionCertificateIssued ≠ ConditionPodsVerified
    ∧ ConditionReady ≠ ConditionPodsVerified ∧ ConditionReady ≠ ConditionCertificateIssued := by
  decide

@[simp]
theorem pods_putClaim (w : World) (c : IdentityClaim) : (w.putClaim c).pods = w.pods := rfl

@[simp]
theorem pods_certs (w : World) (cs : List Certificate) :
    ({ w with certs := cs } : World).pods = w.pods := rfl

theorem matchingPods_congr {w1 w2 : World} (h : w1.pods = w2.pods) (ns : String)
    (sel : Selector) : matchingPods w1 ns sel = matchingPods w2 ns sel := by
  unfold matchingPods
  rw [h]

/-- After a pass that found no pod and persisted the status, a second pass on the
store it left, with no failure, writes the same store again. -/
theorem Reconcile_again_after_no_pods (f : Faults) (clock clock2 : Nat → Time) (w w1 : World)
    (req : NamespacedName) (claim claim2 : IdentityClaim) (n : Nat) (calls1 : List Call)
    (hg : getClaim f w req = .ok claim)
    (hdel : ¬ claim.DeletionTimestamp.isSome = true)
    (hfin : ¬ (!ContainsFinalizer claim finalizerName) = true)
    (hph : ¬ claim.Status.Phase = "")
    (hv : verifyMatchingPods f w claim = (.ok n, calls1))
    (hn : n = 0)
    (hu : updateStatus f w
        (setCondition claim ConditionPodsVerified ConditionFalse "NoPods"
          "No pods matching selector found" (clock 0)) = .ok (claim2, w1)) :
    (Reconcile {} clock2 w1 req).world = w1 ∧ (Reconcile {} clock2 w1 req).err = none
      ∧ ⟨Op.UpdateStatus, none⟩ ∈ (Reconcile {} clock2 w1 req).calls := by
  subst hn
  simp only [getClaim_ok_iff] at hg
  obtain ⟨-, hfind, hkey⟩ := hg
  simp only [verifyMatchingPods_ok_iff] at hv
  obtain ⟨sel, hsel, -, hlen, -⟩ := hv
  simp only [updateStatus_ok_iff, setCondition_key] at hu
  obtain ⟨-, stored, hst, -, hc2, hw1⟩ := hu
  rw [hkey, hfind] at hst
  cases hst
  rw [← hc2] at hw1
  have hk2 : claim2.key = req := by rw [hc2]; exact hkey
  have hfind2 : findClaim w1 req = some claim2 := by
    rw [hw1, findClaim_putClaim, if_pos hk2, hfind]; rfl
  have hg2 : getClaim {} w1 req = .ok claim2 := getClaim_ok_iff.mpr ⟨rfl, hfind2, hk2⟩
  have hdel2 : claim2.DeletionTimestamp.isSome = false := by
    rw [hc2]; simpa using hdel
  have hfin2 : ContainsFinalizer claim2 finalizerName = true := by
    rw [hc2]; simpa [ContainsFinalizer] using hfin
  have hph2 : claim2.Status.Phase ≠ "" := by
    rw [hc2]; exact hph
  have hv2 : verifyMatchingPods {} w1 claim2 = (.ok 0, [⟨Op.ListPods, none⟩]) := by
    rw [verifyMatchingPods_ok_iff]
    refine ⟨sel, by rw [hc2]; exact hsel, rfl, ?_, rfl⟩
    rw [hlen, hw1, hc2]
    rfl
  have hs2 : setCondition claim2 ConditionPodsVerified ConditionFalse "NoPods"
      "No pods matching selector found" (clock2 0) = claim2 := by
    have hh : HasCondition claim2.Status.Conditions ConditionPodsVerified ConditionFalse
        "NoPods" "No pods matching selector found" claim2.Generation := by
      rw [hc2]
      exact HasCondition_set _ _ _ _ _ _ _
    unfold setCondition
    rw [SetStatusCondition_of_HasCondition _ _ _ _ _ _ _ hh]
  have hu2 : updateStatus {} w1 claim2 = .ok (claim2, w1) := by
    rw [updateStatus_ok_iff]
    refine ⟨rfl, claim2, by rw [hk2]; exact hfind2, rfl, rfl, ?_⟩
    rw [hw1]
    exact (putClaim_putClaim w claim2).symm
  unfold Reconcile
  simp only [hg2, hdel2, hfin2, hph2, hv2, hs2, hu2]
  simp

/-- After a pass that found the certificate ready and persisted the status, a
second pass on the store it left, with no failure, writes the same store again. -/
theorem Reconcile_again_after_ready (f : Faults) (clock clock2 : Nat → Time) (w w1 w2 : World)
    (req : NamespacedName) (claim claim5 : IdentityClaim) (n : Nat) (calls1 : List Call)
    (cert : Certificate)
    (hg : getClaim f w req = .ok claim)
    (hdel : ¬ claim.DeletionTimestamp.isSome = true)
    (hfin : ¬ (!ContainsFinalizer claim finalizerName) = true)
    (_hph : ¬ claim.Status.Phase = "")
    (hv : verifyMatchingPods f w claim = (.ok n, calls1))
    (hn : ¬ n = 0)
    (hrc : reconcileCertificate f w
        (setCondition claim ConditionPodsVerified ConditionTrue "PodsFound"
          ("Found " ++ toString n ++ " matching pod(s)") (clock 0)) = .ok w1)
    (hgc : getCert f w1 ⟨claim.Namespace, claim.Status.SecretName⟩ = .ok cert)
    (hrd : ¬ (!cert.Status.Conditions.any (fun cond =>
        decide (cond.Type_ = CertificateConditionReady)
          && decide (cond.Status = ConditionTrue))) = true)
    (hu : updateStatus f w1
        (setCondition
          (setCondition
            { setCondition claim ConditionPodsVerified ConditionTrue "PodsFound"
                ("Found " ++ toString n ++ " matching pod(s)") (clock 0) with
              Status :=
                { (setCondition claim ConditionPodsVerified ConditionTrue "PodsFound"
                    ("Found " ++ toString n ++ " matching pod(s)") (clock 0)).Status with
                  Phase := PhaseReady
                  ExpiresAt :=
                    match cert.Status.NotAfter with
                    | some t => some t
                    | none =>
                      (setCondition claim ConditionPodsVerified ConditionTrue "PodsFound"
                        ("Found " ++ toString n ++ " matching pod(s)")
                        (clock 0)).Status.ExpiresAt } }
            ConditionCertificateIssued ConditionTrue "Issued" "Certificate has been issued"
            (clock 1))
          ConditionReady ConditionTrue "Ready" "Identity is ready for use" (clock 2))
        = .ok (claim5, w2)) :
    (Reconcile {} clock2 w2 req).world = w2 ∧ (Reconcile {} clock2 w2 req).err = none
      ∧ ⟨Op.UpdateStatus, none⟩ ∈ (Reconcile {} clock2 w2 req).calls := by
  obtain ⟨hne1, hne2, hne3⟩ := cond_types_ne
  simp only [getClaim_ok_iff] at hg
  obtain ⟨-, hfind, hkey⟩ := hg
  simp only [verifyMatchingPods_ok_iff] at hv
  obtain ⟨sel, hsel, -, hlen, -⟩ := hv
  have hrc0 := hrc
  simp only [reconcileCertificate_ok_iff] at hrc
  obtain ⟨certs, hw1, -⟩ := hrc
  simp only [getCert_ok_iff] at hgc
  obtain ⟨-, hfc, hck⟩ := hgc
  simp only [updateStatus_ok_iff, setCondition_key, key_mk, mk_key] at hu
  obtain ⟨-, stored, hst, -, hc5, hw2⟩ := hu
  have hfind1 : findClaim w1 req = some claim := by rw [hw1]; exact hfind
  rw [hkey, hfind1] at hst
  cases hst
  rw [← hc5] at hw2
  have hk5 : claim5.key = req := by rw [hc5]; exact hkey
  have hfind5 : findClaim w2 req = some claim5 := by
    rw [hw2, findClaim_putClaim, if_pos hk5, hfind1]; rfl
  have hg5 : getClaim {} w2 req = .ok claim5 := getClaim_ok_iff.mpr ⟨rfl, hfind5, hk5⟩
  have hdel5 : claim5.DeletionTimestamp.isSome = false := by
    rw [hc5]; simpa using hdel
  have hfin5 : ContainsFinalizer claim5 finalizerName = true := by
    rw [hc5]; simpa [ContainsFinalizer] using hfin
  have hph5 : claim5.Status.Phase = PhaseReady := by
    rw [hc5]; rfl
  have hph5n : claim5.Status.Phase ≠ "" := by
    rw [hph5]; decide
  have hv5 : verifyMatchingPods {} w2 claim5 = (.ok n, [⟨Op.ListPods, none⟩]) := by
    rw [verifyMatchingPods_ok_iff]
    refine ⟨sel, by rw [hc5]; exact hsel, rfl, ?_, rfl⟩
    rw [hlen, hw2, hw1, hc5]
    rfl
  have hpv : HasCondition claim5.Status.Conditions ConditionPodsVerified ConditionTrue
      "PodsFound" ("Found " ++ toString n ++ " matching pod(s)") claim5.Generation := by
    rw [hc5]
    exact HasCondition_set_ne _ _ _ _ _ _ _ hne2
      (HasCondition_set_ne _ _ _ _ _ _ _ hne1 (HasCondition_set _ _ _ _ _ _ _))
  have hci : HasCondition claim5.Status.Conditions ConditionCertificateIssued ConditionTrue
      "Issued" "Certificate has been issued" claim5.Generation := by
    rw [hc5]
    exact HasCondition_set_ne _ _ _ _ _ _ _ hne3 (HasCondition_set _ _ _ _ _ _ _)
  have hre : HasCondition claim5.Status.Conditions ConditionReady ConditionTrue
      "Ready" "Identity is ready for use" claim5.Generation := by
    rw [hc5]
    exact HasCondition_set _ _ _ _ _ _ _
  have hs1 : setCondition claim5 ConditionPodsVerified ConditionTrue "PodsFound"
      ("Found " ++ toString n ++ " matching pod(s)") (clock2 0) = claim5 := by
    unfold setCondition
    rw [SetStatusCondition_of_HasCondition _ _ _ _ _ _ _ hpv]
  have hrc5 : reconcileCertificate {} w2 claim5 = .ok w2 := by
    rw [hw2]
    exact reconcileCertificate_again f w w1 _ claim5 (by rw [hc5]; rfl) (by rw [hc5]; rfl)
      (by rw [hc5]; rfl) (by rw [hc5]; rfl) (by rw [hc5]; rfl) (by rw [hc5]; rfl) hrc0
  have hgc5 : getCert {} w2 ⟨claim5.Namespace, claim5.Status.SecretName⟩ = .ok cert := by
    rw [getCert_ok_iff]
    refine ⟨rfl, ?_, ?_⟩
    · rw [hw2, findCert_putClaim, hc5]; exact hfc
    · rw [hc5]; exact hck
  have hrd5 : (cert.Status.Conditions.any (fun cond =>
        decide (cond.Type_ = CertificateConditionReady)
          && decide (cond.Status = ConditionTrue))) = true := by
    simpa using hrd
  have hexp : (match cert.Status.NotAfter with
      | some t => some t
      | none => claim5.Status.ExpiresAt) = claim5.Status.ExpiresAt := by
    rw [hc5]
    cases cert.Status.NotAfter <;> rfl
  have hs2 : ({ claim5 with
      Status :=
        { claim5.Status with
          Phase := PhaseReady
          ExpiresAt :=
            match cert.Status.NotAfter with
            | some t => some t
            | none => claim5.Status.ExpiresAt } } : IdentityClaim) = claim5 := by
    rw [hexp, ← hph5]
  have hs3 : setCondition claim5 ConditionCertificateIssued ConditionTrue "Issued"
      "Certificate has been issued" (clock2 1) = claim5 := by
    unfold setCondition
    rw [SetStatusCondition_of_HasCondition _ _ _ _ _ _ _ hci]
  have hs4 : setCondition claim5 ConditionReady ConditionTrue "Ready"
      "Identity is ready for use" (clock2 2) = claim5 := by
    unfold setCondition
    rw [SetStatusCondition_of_HasCondition _ _ _ _ _ _ _ hre]
  have hu5 : updateStatus {} w2 claim5 = .ok (claim5, w2) := by
    rw [updateStatus_ok_iff]
    refine ⟨rfl, claim5, by rw [hk5]; exact hfind5, rfl, rfl, ?_⟩
    rw [hw2]
    exact (putClaim_putClaim w1 claim5).symm
  unfold Reconcile
  simp only [hg5, hdel5, hfin5, hph5n, hv5, hn, hs1, hrc5, hgc5, hrd5, hs2, hs3, hs4, hu5]
  simp only [Bool.false_eq_true, if_false, Bool.not_true, if_true]
  split <;> [split; skip] <;> simp

/-! ## C7 -/

theorem phase_ne_ready : PhasePending ≠ PhaseReady ∧ PhaseIssuing ≠ PhaseReady
    ∧ PhaseFailed ≠ PhaseReady := by decide

set_option maxHeartbeats 2000000 in
/-- C7: when a pass has persisted a status and the stored claim is in phase Ready
after it, a further pass on the store it left (same pods, same certificate, same
claim generation) with no failure of a call, whatever the clock reads, persists a
status again and leaves the store exactly as it was: phase, spiffeId,
secretName, expiresAt and the conditions with their transition times are
unchanged. -/
theorem Reconcile_ready_idempotent (f : Faults) (clock clock2 : Nat → Time) (w : World)
    (req : NamespacedName) (c1 : IdentityClaim)
    (hwritten : ⟨Op.UpdateStatus, none⟩ ∈ (Reconcile f clock w req).calls)
    (hstored : findClaim (Reconcile f clock w req).world req = some c1)
    (hready : c1.Status.Phase = PhaseReady) :
    (Reconcile {} clock2 (Reconcile f clock w req).world req).world
        = (Reconcile f clock w req).world
      ∧ (Reconcile {} clock2 (Reconcile f clock w req).world req).err = none
      ∧ ⟨Op.UpdateStatus, none⟩
          ∈ (Reconcile {} clock2 (Reconcile f clock w req).world req).calls := by
  have hp := phase_ne_ready
  generalize ho : Reconcile f clock w req = o at *
  unfold Reconcile at ho
  dsimp only at ho
  split at ho
  · split at ho <;> subst ho <;> simp at hwritten
  · rename_i claim hg
    split at ho
    · subst ho
      exfalso
      have hkey := (getClaim_ok_iff.mp hg).2
      have := (reconcileDelete_spec f w claim (by rw [hkey.2]; exact hkey.1)).2.2.2
        Op.UpdateStatus none (by simpa using hwritten)
      simp at this
    · repeat' split at ho
      all_goals subst ho
      all_goals first
        | exact Reconcile_again_after_ready f clock clock2 w _ _ req _ _ _ _ _
            hg (by assumption) (by assumption) (by assumption) (by assumption)
            (by assumption) (by assumption) (by assumption) (by assumption) (by assumption)
        | exact Reconcile_again_after_no_pods f clock clock2 w _ req _ _ _ _
            hg (by assumption) (by assumption) (by assumption) (by assumption)
            (by assumption) (by assumption)
        | (simp_all; done)
        | (simp_all; aesop)

/-- C7, witness: the pass on the store with the issued certificate ends in phase
Ready; a second pass one minute later leaves the store as it is. -/
theorem Reconcile_ready_idempotent_witness :
    (⟨Op.UpdateStatus, none⟩ ∈ (Reconcile {} exClock readyWorld exRequest).calls
      ∧ findClaim (Reconcile {} exClock readyWorld exRequest).world exRequest = some readyClaim
      ∧ readyClaim.Status.Phase = PhaseReady)
    ∧ ((Reconcile {} laterClock (Reconcile {} exClock readyWorld exRequest).world
          exRequest).world = (Reconcile {} exClock readyWorld exRequest).world
      ∧ (Reconcile {} laterClock (Reconcile {} exClock readyWorld exRequest).world
          exRequest).err = none
      ∧ ⟨Op.UpdateStatus, none⟩
          ∈ (Reconcile {} laterClock (Reconcile {} exClock readyWorld exRequest).world
              exRequest).calls) :=
  ⟨⟨by decide, by decide, by decide⟩,
    Reconcile_ready_idempotent {} exClock laterClock readyWorld exRequest readyClaim
      (by decide) (by decide) (by decide)⟩

/-! ## C8 -/

/-- The mutate function of `reconcileCertificate` always writes the same spec. -/
theorem mutate_Spec (claim : IdentityClaim) (certName : String) (duration : Duration)
    (x y : Certificate) (h : reconcileCertificate.mutate claim certName duration x = .ok y) :
    y.Spec =
      { SecretName := certName, Duration := some duration,
        RenewBefore := some (Int.tdiv duration 3), URIs := [claim.Status.SpiffeID],
        CommonName := claim.Name,
        IssuerRef := { Name := "selfsigned-issuer", Kind := "ClusterIssuer",
                       Group := "cert-manager.io" },
        PrivateKey := some { Algorithm := "ECDSA", Size := 256 } } := by
  unfold reconcileCertificate.mutate at h
  cases hx : SetControllerReference claim x with
  | error e => rw [hx] at h; cases h
  | ok x1 =>
    rw [hx] at h
    simp only [Except.ok.injEq] at h
    subst h
    rfl

/-- `CreateOrUpdate` succeeds when its read and its write do not fail and the
mutate function accepts the object it is given and keeps its key. -/
theorem CreateOrUpdate_succeeds (f : Faults) (w : World) (obj : Certificate)
    (mutate : Certificate → Except Err Certificate)
    (hg : f.certUpsertGet = none) (hw : f.certUpsertWrite = none)
    (hm : ∀ x, x.key = obj.key → (x = obj ∨ findCert w obj.key = some x) →
      ∃ y, mutate x = .ok y ∧ y.key = obj.key) :
    ∃ w1, CreateOrUpdate f w obj mutate = .ok w1 := by
  unfold CreateOrUpdate CreateOrUpdate.get
  simp only [hg, hw]
  cases hfind : findCert w obj.key with
  | none =>
    obtain ⟨y, hy, hyk⟩ := hm obj rfl (Or.inl rfl)
    have hnf : IsNotFound (notFoundErr "certificates" obj.key) = true := rfl
    simp only [hnf, Bool.not_true, Bool.false_eq_true, if_false, hy, hyk, ne_eq,
      not_true_eq_false, hfind, Option.isSome_none]
    exact ⟨_, rfl⟩
  | some existing =>
    obtain ⟨y, hy, hyk⟩ := hm existing (findCert_key hfind) (Or.inr hfind)
    simp only [hy, hyk, ne_eq, not_true_eq_false, if_false, hfind]
    split
    · exact ⟨_, rfl⟩
    · exact ⟨_, rfl⟩

/-- C8: for every claim (a claim has no field to name an issuer), the certificate
that a successful `reconcileCertificate` leaves in the store under the name
status.secretName has the spec: secretName = that name; duration = spec.ttl, or
1 hour when spec.ttl is 0; renewBefore = the duration divided by 3, truncated
(20 minutes for 1 hour); URIs = [status.spiffeId]; commonName = the name of the
claim; issuerRef = selfsigned-issuer / ClusterIssuer / cert-manager.io; private
key ECDSA of size 256. And `reconcileCertificate` does succeed when its read and
write do not fail and no other object controls that certificate. -/
theorem reconcileCertificate_spec (f : Faults) (w : World) (claim : IdentityClaim) :
    (∀ w1, reconcileCertificate f w claim = .ok w1 →
        ∃ cert, findCert w1 ⟨claim.Namespace, claim.Status.SecretName⟩ = some cert
          ∧ cert.Spec =
              { SecretName := claim.Status.SecretName
                Duration := some (if claim.Spec.TTL = 0 then Hour else claim.Spec.TTL)
                RenewBefore :=
                  some (Int.tdiv (if claim.Spec.TTL = 0 then Hour else claim.Spec.TTL) 3)
                URIs := [claim.Status.SpiffeID]
                CommonName := claim.Name
                IssuerRef := { Name := "selfsigned-issuer", Kind := "ClusterIssuer",
                               Group := "cert-manager.io" }
                PrivateKey := some { Algorithm := "ECDSA", Size := 256 } })
      ∧ Int.tdiv Hour 3 = 20 * Minute
      ∧ (f.certUpsertGet = none → f.certUpsertWrite = none →
          (∀ cert e, findCert w ⟨claim.Namespace, claim.Status.SecretName⟩ = some cert →
            cert.OwnerReferences.find? (fun r => r.Controller) = some e →
            referSameObject e (controllerRef claim) = true) →
          ∃ w1, reconcileCertificate f w claim = .ok w1) := by
  refine ⟨?_, by decide, ?_⟩
  · intro w1 h
    unfold reconcileCertificate at h
    dsimp only at h
    obtain ⟨x, hx, hmx⟩ := CreateOrUpdate_result f w w1 _ _
      (fun x y s hxy => mutate_idem _ _ _ x y s hxy) h
    exact ⟨x, hx, mutate_Spec _ _ _ x x hmx⟩
  · intro hg hw hown
    unfold reconcileCertificate
    dsimp only
    apply CreateOrUpdate_succeeds f w _ _ hg hw
    intro x hxk hx
    have hns : x.Namespace = claim.Namespace := congrArg NamespacedName.Namespace hxk
    have hs : SetControllerReference claim x
        = .ok { x with
            OwnerReferences := upsertOwnerRef (controllerRef claim) x.OwnerReferences } := by
      rw [SetControllerReference_ok_iff]
      refine ⟨?_, ?_, ?_, rfl⟩
      · intro h; rw [hns] at h; exact h.1 h.2
      · intro h; rw [hns] at h; exact h.2 rfl
      · intro e he
        rcases hx with hx | hx
        · rw [hx] at he; simp at he
        · exact hown x e hx he
    unfold reconcileCertificate.mutate
    rw [hs]
    exact ⟨_, rfl, hxk⟩

/-- C8, witness: the initialized claim of the example, with a ttl of one hour, in
a store without its certificate. -/
theorem reconcileCertificate_spec_witness :
    (exClaim.Spec.TTL = Hour
      ∧ findCert exWorld ⟨exClaim.Namespace, exClaim.Status.SecretName⟩ = none)
    ∧ ((∀ w1, reconcileCertificate {} exWorld exClaim = .ok w1 →
        ∃ cert, findCert w1 ⟨exClaim.Namespace, exClaim.Status.SecretName⟩ = some cert
          ∧ cert.Spec =
              { SecretName := exClaim.Status.SecretName
                Duration := some (if exClaim.Spec.TTL = 0 then Hour else exClaim.Spec.TTL)
                RenewBefore :=
                  some (Int.tdiv (if exClaim.Spec.TTL = 0 then Hour else exClaim.Spec.TTL) 3)
                URIs := [exClaim.Status.SpiffeID]
                CommonName := exClaim.Name
                IssuerRef := { Name := "selfsigned-issuer", Kind := "ClusterIssuer",
                               Group := "cert-manager.io" }
                PrivateKey := some { Algorithm := "ECDSA", Size := 256 } })
      ∧ Int.tdiv Hour 3 = 20 * Minute
      ∧ ((({} : Faults).certUpsertGet = none) → (({} : Faults).certUpsertWrite = none) →
          (∀ cert e, findCert exWorld ⟨exClaim.Namespace, exClaim.Status.SecretName⟩ = some cert →
            cert.OwnerReferences.find? (fun r => r.Controller) = some e →
            referSameObject e (controllerRef exClaim) = true) →
          ∃ w1, reconcileCertificate {} exWorld exClaim = .ok w1)) :=
  ⟨⟨by decide, by decide⟩, reconcileCertificate_spec {} exWorld exClaim⟩

/-! ## C3 -/

/-- The spec of the certificate that a successful `reconcileCertificate` leaves in
the store. -/
theorem reconcileCertificate_stored_spec (f : Faults) (w w1 : World) (claim : IdentityClaim)
    (h : reconcileCertificate f w claim = .ok w1) :
    ∃ cert, findCert w1 ⟨claim.Namespace, claim.Status.SecretName⟩ = some cert
      ∧ cert.Spec =
          { SecretName := claim.Status.SecretName
            Duration := some (if claim.Spec.TTL = 0 then Hour else claim.Spec.TTL)
            RenewBefore :=
              some (Int.tdiv (if claim.Spec.TTL = 0 then Hour else claim.Spec.TTL) 3)
            URIs := [claim.Status.SpiffeID]
            CommonName := claim.Name
            IssuerRef := { Name := "selfsigned-issuer", Kind := "ClusterIssuer",
                           Group := "cert-manager.io" }
            PrivateKey := some { Algorithm := "ECDSA", Size := 256 } } := by
  unfold reconcileCertificate at h
  dsimp only at h
  obtain ⟨x, hx, hmx⟩ := CreateOrUpdate_result f w w1 _ _
    (fun x y s hxy => mutate_idem _ _ _ x y s hxy) h
  exact ⟨x, hx, mutate_Spec _ _ _ x x hmx⟩

/-- C3, counterexample: for the claim of the controller test "When custom
issuerRef is specified" the pass creates a certificate with the default issuer
selfsigned-issuer of kind ClusterIssuer, not the issuer my-custom-issuer of kind
Issuer that the test asks for; and no claim, store or failure makes
`reconcileCertificate` build a certificate with that issuer. -/
theorem reconcileCertificate_ignores_custom_issuer :
    customIssuerOutcome.err = none
      ∧ (findCert customIssuerOutcome.world ⟨"default", "custom-issuer-claim-identity"⟩).map
            (fun cert => cert.Spec.IssuerRef)
          = some ⟨"selfsigned-issuer", "ClusterIssuer", "cert-manager.io"⟩
      ∧ customIssuerRequested = ⟨"my-custom-issuer", "Issuer", "cert-manager.io"⟩
      ∧ (⟨"selfsigned-issuer", "ClusterIssuer", "cert-manager.io"⟩ : ObjectReference)
          ≠ customIssuerRequested
      ∧ ¬ ∃ (f : Faults) (w w1 : World) (claim : IdentityClaim) (cert : Certificate),
          reconcileCertificate f w claim = .ok w1
            ∧ findCert w1 ⟨claim.Namespace, claim.Status.SecretName⟩ = some cert
            ∧ cert.Spec.IssuerRef = customIssuerRequested := by
  refine ⟨by decide, by decide, by decide, by decide, ?_⟩
  rintro ⟨f, w, w1, claim, cert, h, hfind, hiss⟩
  obtain ⟨x, hx, hs⟩ := reconcileCertificate_stored_spec f w w1 claim h
  rw [hfind] at hx
  cases hx
  rw [hs] at hiss
  have hne : (⟨"selfsigned-issuer", "ClusterIssuer", "cert-manager.io"⟩ : ObjectReference)
      ≠ customIssuerRequested := by decide
  exact hne hiss

/-- C3, as amended: a claim cannot name an issuer (`IdentityClaimSpec` holds a
selector and a TTL only), and for every claim, whatever its spec, the certificate
that a successful `reconcileCertificate` leaves in the store carries the default
issuer: name selfsigned-issuer, kind ClusterIssuer, group cert-manager.io. -/
theorem reconcileCertificate_issuer_fixed (f : Faults) (w w1 : World) (claim : IdentityClaim)
    (h : reconcileCertificate f w claim = .ok w1) :
    ∃ cert, findCert w1 ⟨claim.Namespace, claim.Status.SecretName⟩ = some cert
      ∧ cert.Spec.IssuerRef
          = { Name := "selfsigned-issuer", Kind := "ClusterIssuer", Group := "cert-manager.io" } := by
  obtain ⟨x, hx, hs⟩ := reconcileCertificate_stored_spec f w w1 claim h
  exact ⟨x, hx, by rw [hs]⟩

/-- C3, witness: the claim of the controller test "When custom issuerRef is
specified", for which `reconcileCertificate` succeeds. -/
theorem reconcileCertificate_issuer_fixed_witness :
    reconcileCertificate {} customIssuerWorld customIssuerClaim = .ok customIssuerStore
    ∧ ∃ cert, findCert customIssuerStore
          ⟨customIssuerClaim.Namespace, customIssuerClaim.Status.SecretName⟩ = some cert
      ∧ cert.Spec.IssuerRef
          = { Name := "selfsigned-issuer", Kind := "ClusterIssuer", Group := "cert-manager.io" } :=
  ⟨by rfl, reconcileCertificate_issuer_fixed {} customIssuerWorld customIssuerStore
    customIssuerClaim (by rfl)⟩

/-! ## The pass that finds the certificate ready -/

/-- What the pass that finds the certificate ready has persisted when its status
update succeeds. -/
theorem Reconcile_ready_facts (f : Faults) (clock : Nat → Time) (w w1 w2 : World)
    (req : NamespacedName) (claim claim5 : IdentityClaim) (n : Nat)
    (cert : Certificate)
    (hg : getClaim f w req = .ok claim)
    (hrc : reconcileCertificate f w
        (setCondition claim ConditionPodsVerified ConditionTrue "PodsFound"
          ("Found " ++ toString n ++ " matching pod(s)") (clock 0)) = .ok w1)
    (hgc : getCert f w1 ⟨claim.Namespace, claim.Status.SecretName⟩ = .ok cert)
    (hu : updateStatus f w1
        (setCondition
          (setCondition
            { setCondition claim ConditionPodsVerified ConditionTrue "PodsFound"
                ("Found " ++ toString n ++ " matching pod(s)") (clock 0) with
              Status :=
                { (setCondition claim ConditionPodsVerified ConditionTrue "PodsFound"
                    ("Found " ++ toString n ++ " matching pod(s)") (clock 0)).Status with
                  Phase := PhaseReady
                  ExpiresAt :=
                    match cert.Status.NotAfter with
                    | some t => some t
                    | none =>
                      (setCondition claim ConditionPodsVerified ConditionTrue "PodsFound"
                        ("Found " ++ toString n ++ " matching pod(s)")
                        (clock 0)).Status.ExpiresAt } }
            ConditionCertificateIssued ConditionTrue "Issued" "Certificate has been issued"
            (clock 1))
          ConditionReady ConditionTrue "Ready" "Identity is ready for use" (clock 2))
        = .ok (claim5, w2)) :
    findClaim w req = some claim
      ∧ findClaim w2 req = some claim5
      ∧ findCert w2 ⟨claim.Namespace, claim.Status.SecretName⟩ = some cert
      ∧ claim5.Status.Phase = PhaseReady
      ∧ claim5.Status.ExpiresAt
          = (match cert.Status.NotAfter with
            | some t => some t
            | none => claim.Status.ExpiresAt)
      ∧ HasCondition claim5.Status.Conditions ConditionCertificateIssued ConditionTrue
          "Issued" "Certificate has been issued" claim5.Generation
      ∧ HasCondition claim5.Status.Conditions ConditionReady ConditionTrue
          "Ready" "Identity is ready for use" claim5.Generation := by
  obtain ⟨hne1, hne2, hne3⟩ := cond_types_ne
  simp only [getClaim_ok_iff] at hg
  obtain ⟨-, hfind, hkey⟩ := hg
  simp only [reconcileCertificate_ok_iff] at hrc
  obtain ⟨certs, hw1, -⟩ := hrc
  simp only [getCert_ok_iff] at hgc
  obtain ⟨-, hfc, hck⟩ := hgc
  simp only [updateStatus_ok_iff, setCondition_key, key_mk, mk_key] at hu
  obtain ⟨-, stored, hst, -, hc5, hw2⟩ := hu
  have hfind1 : findClaim w1 req = some claim := by rw [hw1]; exact hfind
  rw [hkey, hfind1] at hst
  cases hst
  rw [← hc5] at hw2
  have hk5 : claim5.key = req := by rw [hc5]; exact hkey
  refine ⟨hfind, ?_, ?_, ?_, ?_, ?_, ?_⟩
  · rw [hw2, findClaim_putClaim, if_pos hk5, hfind1]; rfl
  · rw [hw2, findCert_putClaim]; exact hfc
  · rw [hc5]; rfl
  · rw [hc5]; rfl
  · rw [hc5]
    exact HasCondition_set_ne _ _ _ _ _ _ _ hne3 (HasCondition_set _ _ _ _ _ _ _)
  · rw [hc5]
    exact HasCondition_set _ _ _ _ _ _ _

/-- The conclusion of C10 (as amended) at the exit of the pass that finds the
certificate ready. -/
theorem Reconcile_ready_status (f : Faults) (clock : Nat → Time) (w w1 w2 : World)
    (req : NamespacedName) (claim claim5 c0 : IdentityClaim) (n : Nat)
    (cert cert0 : Certificate)
    (hg : getClaim f w req = .ok claim)
    (hrc : reconcileCertificate f w
        (setCondition claim ConditionPodsVerified ConditionTrue "PodsFound"
          ("Found " ++ toString n ++ " matching pod(s)") (clock 0)) = .ok w1)
    (hgc : getCert f w1 ⟨claim.Namespace, claim.Status.SecretName⟩ = .ok cert)
    (hu : updateStatus f w1
        (setCondition
          (setCondition
            { setCondition claim ConditionPodsVerified ConditionTrue "PodsFound"
                ("Found " ++ toString n ++ " matching pod(s)") (clock 0) with
              Status :=
                { (setCondition claim ConditionPodsVerified ConditionTrue "PodsFound"
                    ("Found " ++ toString n ++ " matching pod(s)") (clock 0)).Status with
                  Phase := PhaseReady
                  ExpiresAt :=
                    match cert.Status.NotAfter with
                    | some t => some t
                    | none =>
                      (setCondition claim ConditionPodsVerified ConditionTrue "PodsFound"
                        ("Found " ++ toString n ++ " matching pod(s)")
                        (clock 0)).Status.ExpiresAt } }
            ConditionCertificateIssued ConditionTrue "Issued" "Certificate has been issued"
            (clock 1))
          ConditionReady ConditionTrue "Ready" "Identity is ready for use" (clock 2))
        = .ok (claim5, w2))
    (h0 : findClaim w req = some c0)
    (hcert : findCert w2 ⟨c0.Namespace, c0.Status.SecretName⟩ = some cert0) :
    (none : Option Err) = none
      ∧ ∃ c1, findClaim w2 req = some c1
        ∧ c1.Status.Phase = PhaseReady
        ∧ (∀ t, cert0.Status.NotAfter = some t → c1.Status.ExpiresAt = some t)
        ∧ (cert0.Status.NotAfter = none → c1.Status.ExpiresAt = c0.Status.ExpiresAt)
        ∧ (∃ cond, FindStatusCondition c1.Status.Conditions ConditionCertificateIssued = some cond
            ∧ cond.Status = ConditionTrue)
        ∧ (∃ cond, FindStatusCondition c1.Status.Conditions ConditionReady = some cond
            ∧ cond.Status = ConditionTrue) := by
  obtain ⟨l1, l2, l3, l4, l5, l6, l7⟩ :=
    Reconcile_ready_facts f clock w w1 w2 req claim claim5 n cert hg hrc hgc hu
  rw [l1] at h0
  cases h0
  rw [l3] at hcert
  cases hcert
  refine ⟨rfl, claim5, l2, l4, ?_, ?_, ?_, ?_⟩
  · intro t ht; rw [l5, ht]
  · intro ht; rw [l5, ht]
  · obtain ⟨c, hc, hs, -⟩ := l6; exact ⟨c, hc, hs⟩
  · obtain ⟨c, hc, hs, -⟩ := l7; exact ⟨c, hc, hs⟩

/-! ## C10 -/

/-- C10, counterexample: the certificate is fetched and reports Ready with no
expiry, while the status of the claim holds an expiry from an earlier issuance;
the pass persists phase Ready and keeps the old expiry, which is not the observed
expiry of the certificate. -/
theorem Reconcile_ready_keeps_old_expiry :
    noExpiryOutcome.err = none
      ∧ ⟨Op.GetCert, none⟩ ∈ noExpiryOutcome.calls
      ∧ ⟨Op.UpdateStatus, none⟩ ∈ noExpiryOutcome.calls
      ∧ (findCert noExpiryOutcome.world ⟨"default", "demo-identity"⟩).map
          (fun c => (c.Status.Conditions, c.Status.NotAfter))
          = some ([⟨"Ready", "True"⟩], none)
      ∧ (findClaim noExpiryOutcome.world exRequest).map
          (fun c => (c.Status.Phase, c.Status.ExpiresAt))
          = some (PhaseReady, some 1690000000000000000) := by
  decide

set_option maxHeartbeats 2000000 in
/-- C10, as amended: in every pass of Reconcile in which the managed certificate
is fetched and carries a Ready condition with status True, and the status is
persisted, the persisted status has phase Ready, condition CertificateIssued with
status True and condition Ready with status True; expiresAt equals the observed
expiry of the certificate when the certificate reports one, and keeps the value
of before the pass when it reports none. -/
theorem Reconcile_certificate_ready (f : Faults) (clock : Nat → Time) (w : World)
    (req : NamespacedName) (c0 : IdentityClaim) (cert : Certificate)
    (h0 : findClaim w req = some c0)
    (hfetched : ⟨Op.GetCert, none⟩ ∈ (Reconcile f clock w req).calls)
    (hpersisted : ⟨Op.UpdateStatus, none⟩ ∈ (Reconcile f clock w req).calls)
    (hcert : findCert (Reconcile f clock w req).world ⟨c0.Namespace, c0.Status.SecretName⟩
      = some cert)
    (hready : cert.Status.Conditions.any (fun cond =>
        decide (cond.Type_ = CertificateConditionReady)
          && decide (cond.Status = ConditionTrue)) = true) :
    (Reconcile f clock w req).err = none
      ∧ ∃ c1, findClaim (Reconcile f clock w req).world req = some c1
        ∧ c1.Status.Phase = PhaseReady
        ∧ (∀ t, cert.Status.NotAfter = some t → c1.Status.ExpiresAt = some t)
        ∧ (cert.Status.NotAfter = none → c1.Status.ExpiresAt = c0.Status.ExpiresAt)
        ∧ (∃ cond, FindStatusCondition c1.Status.Conditions ConditionCertificateIssued = some cond
            ∧ cond.Status = ConditionTrue)
        ∧ (∃ cond, FindStatusCondition c1.Status.Conditions ConditionReady = some cond
            ∧ cond.Status = ConditionTrue) := by
  generalize ho : Reconcile f clock w req = o at *
  unfold Reconcile at ho
  dsimp only at ho
  split at ho
  · split at ho <;> subst ho <;> simp at hpersisted
  · rename_i claim hg
    split at ho
    · subst ho
      exfalso
      have hkey := (getClaim_ok_iff.mp hg).2
      have := (reconcileDelete_spec f w claim (by rw [hkey.2]; exact hkey.1)).2.2.2
        Op.UpdateStatus none (by simpa using hpersisted)
      simp at this
    · repeat' split at ho
      all_goals subst ho
      all_goals first
        | exact Reconcile_ready_status f clock w _ _ req _ _ c0 _ _ cert
            hg (by assumption) (by assumption) (by assumption) h0 hcert
        | (simp_all; done)
        | (simp_all; aesop)

/-- C10, witness: the pass on the store with the issued certificate, whose expiry
is reported. -/
theorem Reconcile_certificate_ready_witness :
    (findClaim readyWorld exRequest = some exClaim
      ∧ ⟨Op.GetCert, none⟩ ∈ (Reconcile {} exClock readyWorld exRequest).calls
      ∧ ⟨Op.UpdateStatus, none⟩ ∈ (Reconcile {} exClock readyWorld exRequest).calls
      ∧ findCert (Reconcile {} exClock readyWorld exRequest).world
          ⟨exClaim.Namespace, exClaim.Status.SecretName⟩ = some readyCert
      ∧ readyCert.Status.NotAfter = some 1700003600000000000)
    ∧ ((Reconcile {} exClock readyWorld exRequest).err = none
      ∧ ∃ c1, findClaim (Reconcile {} exClock readyWorld exRequest).world exRequest = some c1
        ∧ c1.Status.Phase = PhaseReady
        ∧ (∀ t, readyCert.Status.NotAfter = some t → c1.Status.ExpiresAt = some t)
        ∧ (readyCert.Status.NotAfter = none → c1.Status.ExpiresAt = exClaim.Status.ExpiresAt)
        ∧ (∃ cond, FindStatusCondition c1.Status.Conditions ConditionCertificateIssued
              = some cond ∧ cond.Status = ConditionTrue)
        ∧ (∃ cond, FindStatusCondition c1.Status.Conditions ConditionReady = some cond
            ∧ cond.Status = ConditionTrue)) :=
  ⟨⟨by decide, by decide, by decide, by decide, by decide⟩,
    Reconcile_certificate_ready {} exClock readyWorld exRequest exClaim readyCert
      (by decide) (by decide) (by decide) (by decide) (by decide)⟩

/-! ## C9 -/

/-- The delay `time.Until(renewAt)`: the difference to the instant the clock reads,
kept within the range of a duration; positive when that instant is before
`renewAt`. -/
theorem Until_renewAt (now t : Time) :
    Until now (Time.Add t (-10 * Minute))
        = max minDuration (min (t - 10 * Minute - now) maxDuration)
      ∧ (now < t - 10 * Minute → 0 < Until now (Time.Add t (-10 * Minute))) := by
  simp only [Until, Time.Sub, Time.Add, maxDuration, minDuration, Minute, Second]
  delta Time Duration at *
  refine ⟨?_, ?_⟩
  · split_ifs <;> omega
  · intro h
    split_ifs <;> omega

/-- The comparison `time.Now().Before(renewAt)`, and the sign of the fallback
delay. -/
theorem before_renewAt (now t : Time) :
    (Time.Before now (Time.Add t (-10 * Minute)) = true ↔ now < t - 10 * Minute)
      ∧ (0 : Duration) < 30 * Minute := by
  simp only [Time.Before, Time.Add, decide_eq_true_eq, Minute, Second]
  delta Time Duration at *
  constructor
  · constructor <;> intro h <;> omega
  · omega

/-- The delay computed at the renewal step, for each of its three exits. -/
theorem Reconcile_renewal_delay (f : Faults) (clock : Nat → Time) (w w1 w2 : World)
    (req : NamespacedName) (claim claim5 : IdentityClaim) (n : Nat)
    (cert : Certificate) (r : Duration)
    (hg : getClaim f w req = .ok claim)
    (hrc : reconcileCertificate f w
      (setCondition claim ConditionPodsVerified ConditionTrue "PodsFound"
        ("Found " ++ toString n ++ " matching pod(s)") (clock 0)) = .ok w1)
    (hgc : getCert f w1 ⟨claim.Namespace, claim.Status.SecretName⟩ = .ok cert)
    (hu : updateStatus f w1
      (setCondition
        (setCondition
          { setCondition claim ConditionPodsVerified ConditionTrue "PodsFound"
              ("Found " ++ toString n ++ " matching pod(s)") (clock 0) with
            Status :=
              { (setCondition claim ConditionPodsVerified ConditionTrue "PodsFound"
                  ("Found " ++ toString n ++ " matching pod(s)") (clock 0)).Status with
                Phase := PhaseReady
                ExpiresAt :=
                  match cert.Status.NotAfter with
                  | some t => some t
                  | none =>
                    (setCondition claim ConditionPodsVerified ConditionTrue "PodsFound"
                      ("Found " ++ toString n ++ " matching pod(s)")
                      (clock 0)).Status.ExpiresAt } }
          ConditionCertificateIssued ConditionTrue "Issued" "Certificate has been issued"
          (clock 1))
        ConditionReady ConditionTrue "Ready" "Identity is ready for use" (clock 2))
      = .ok (claim5, w2))
    (hr : (∃ t, claim5.Status.ExpiresAt = some t
            ∧ Time.Before (clock 3) (Time.Add t (-10 * Minute)) = true
            ∧ r = Until (clock 4) (Time.Add t (-10 * Minute)))
        ∨ (∃ t, claim5.Status.ExpiresAt = some t
            ∧ ¬ Time.Before (clock 3) (Time.Add t (-10 * Minute)) = true
            ∧ r = 30 * Minute)
        ∨ (claim5.Status.ExpiresAt = none ∧ r = 30 * Minute)) :
    (none : Option Err) = none
      ∧ ∃ c1, findClaim w2 req = some c1
        ∧ (∀ t, c1.Status.ExpiresAt = some t → clock 3 < t - 10 * Minute →
            r = max minDuration (min (t - 10 * Minute - clock 4) maxDuration)
              ∧ (clock 4 < t - 10 * Minute → 0 < r))
        ∧ (∀ t, c1.Status.ExpiresAt = some t → ¬ clock 3 < t - 10 * Minute →
            r = 30 * Minute)
        ∧ (c1.Status.ExpiresAt = none → r = 30 * Minute)
        ∧ (0 : Duration) < 30 * Minute := by
  have hfacts := Reconcile_ready_facts f clock w w1 w2 req claim claim5 n cert hg hrc hgc hu
  refine ⟨rfl, claim5, hfacts.2.1, ?_⟩
  rcases hr with ⟨t, he, hb, hr⟩ | ⟨t, he, hb, hr⟩ | ⟨he, hr⟩
  · have hlt := (before_renewAt (clock 3) t).1.mp hb
    rw [he, hr]
    refine ⟨?_, ?_, ?_, (before_renewAt 0 0).2⟩
    · intro t1 ht1 _
      cases ht1
      exact Until_renewAt (clock 4) t
    · intro t1 ht1 hnlt
      cases ht1
      exact absurd hlt hnlt
    · intro h; cases h
  · have hnlt : ¬ clock 3 < t - 10 * Minute := fun h => hb ((before_renewAt (clock 3) t).1.mpr h)
    rw [he, hr]
    refine ⟨?_, ?_, ?_, (before_renewAt 0 0).2⟩
    · intro t1 ht1 hlt
      cases ht1
      exact absurd hlt hnlt
    · intro t1 _ _
      trivial
    · intro h; cases h
  · rw [he, hr]
    refine ⟨?_, ?_, ?_, (before_renewAt 0 0).2⟩
    · intro t1 ht1; cases ht1
    · intro t1 ht1; cases ht1
    · intro _; trivial

/-- C9, counterexamples. First pass: the certificate is ready, the status is
persisted with an expiry about 326 years ahead and every clock read gives the same
instant, which is before renewAt; the returned delay is the largest duration, not
renewAt minus now. Second pass: the certificate expires in an hour, the clock read
of the comparison is 5 ns before renewAt and the clock read of `time.Until` 5 ns
after it; the returned delay is -5 ns: not positive, not renewAt minus the first
read, and not 30 minutes. -/
theorem Reconcile_renewal_delay_differs :
    (farFutureOutcome.err = none
      ∧ ⟨Op.GetCert, none⟩ ∈ farFutureOutcome.calls
      ∧ ⟨Op.UpdateStatus, none⟩ ∈ farFutureOutcome.calls
      ∧ (findClaim farFutureOutcome.world exRequest).map
          (fun c => (c.Status.Phase, c.Status.ExpiresAt))
          = some (PhaseReady, some 12000000000000000000)
      ∧ fixedClock 3 = 1700000000000000000
      ∧ fixedClock 4 = 1700000000000000000
      ∧ (1700000000000000000 : Time) < 12000000000000000000 - 10 * Minute
      ∧ farFutureOutcome.result.RequeueAfter = 9223372036854775807
      ∧ farFutureOutcome.result.RequeueAfter
          ≠ 12000000000000000000 - 10 * Minute - 1700000000000000000)
    ∧ (raceOutcome.err = none
      ∧ ⟨Op.GetCert, none⟩ ∈ raceOutcome.calls
      ∧ ⟨Op.UpdateStatus, none⟩ ∈ raceOutcome.calls
      ∧ (findClaim raceOutcome.world exRequest).map
          (fun c => (c.Status.Phase, c.Status.ExpiresAt))
          = some (PhaseReady, some 1700003600000000000)
      ∧ raceClock 3 = 1700002999999999995
      ∧ raceClock 4 = 1700003000000000005
      ∧ (1700002999999999995 : Time) < 1700003600000000000 - 10 * Minute
      ∧ raceOutcome.result.RequeueAfter = -5
      ∧ ¬ 0 < raceOutcome.result.RequeueAfter
      ∧ raceOutcome.result.RequeueAfter
          ≠ 1700003600000000000 - 10 * Minute - 1700002999999999995
      ∧ raceOutcome.result.RequeueAfter ≠ 30 * Minute) := by
  decide

set_option maxHeartbeats 2000000 in
/-- C9, as amended: every pass of Reconcile that reaches the renewal step (the
managed certificate is fetched and ready, the status is persisted) returns no
error. The pass reads the clock twice there: `clock 3` is the read of
`time.Now()` in the comparison, `clock 4` the read of `time.Until`. If the
persisted expiresAt is set and the first read is strictly before
renewAt = expiresAt - 10 minutes, the returned RequeueAfter is renewAt minus the
second read, kept within the range of a duration (at most 2^63 - 1 ns, at least
-2^63 ns), and it is strictly positive when the second read is strictly before
renewAt too; otherwise (renewAt not after the first read, or expiresAt unset) the
returned RequeueAfter is exactly 30 minutes, which is positive. -/
theorem Reconcile_renewal_requeue (f : Faults) (clock : Nat → Time) (w : World)
    (req : NamespacedName) (c0 : IdentityClaim) (cert : Certificate)
    (h0 : findClaim w req = some c0)
    (hfetched : ⟨Op.GetCert, none⟩ ∈ (Reconcile f clock w req).calls)
    (hpersisted : ⟨Op.UpdateStatus, none⟩ ∈ (Reconcile f clock w req).calls)
    (hcert : findCert (Reconcile f clock w req).world ⟨c0.Namespace, c0.Status.SecretName⟩
      = some cert)
    (hready : cert.Status.Conditions.any (fun cond =>
        decide (cond.Type_ = CertificateConditionReady)
          && decide (cond.Status = ConditionTrue)) = true) :
    (Reconcile f clock w req).err = none
      ∧ ∃ c1, findClaim (Reconcile f clock w req).world req = some c1
        ∧ (∀ t, c1.Status.ExpiresAt = some t → clock 3 < t - 10 * Minute →
            (Reconcile f clock w req).result.RequeueAfter
                = max minDuration (min (t - 10 * Minute - clock 4) maxDuration)
              ∧ (clock 4 < t - 10 * Minute →
                  0 < (Reconcile f clock w req).result.RequeueAfter))
        ∧ (∀ t, c1.Status.ExpiresAt = some t → ¬ clock 3 < t - 10 * Minute →
            (Reconcile f clock w req).result.RequeueAfter = 30 * Minute)
        ∧ (c1.Status.ExpiresAt = none →
            (Reconcile f clock w req).result.RequeueAfter = 30 * Minute)
        ∧ (0 : Duration) < 30 * Minute := by
  generalize ho : Reconcile f clock w req = o at *
  unfold Reconcile at ho
  dsimp only at ho
  split at ho
  · split at ho <;> subst ho <;> simp at hpersisted
  · rename_i claim hg
    split at ho
    · subst ho
      exfalso
      have hkey := (getClaim_ok_iff.mp hg).2
      have := (reconcileDelete_spec f w claim (by rw [hkey.2]; exact hkey.1)).2.2.2
        Op.UpdateStatus none (by simpa using hpersisted)
      simp at this
    · repeat' split at ho
      all_goals subst ho
      all_goals first
        | exact Reconcile_renewal_delay f clock w _ _ req _ _ _ _ _
            hg (by assumption) (by assumption) (by assumption)
            (by first
              | exact Or.inl ⟨_, by assumption, by assumption, rfl⟩
              | exact Or.inr (Or.inl ⟨_, by assumption, by assumption, rfl⟩)
              | exact Or.inr (Or.inr ⟨by assumption, rfl⟩))
        | (simp_all; done)
        | (simp_all; aesop)

/-- C9, witness: the pass on the store with the issued certificate, which expires
one hour after the first clock read of the pass; the clock advances by one
nanosecond at every read, and the delay is 50 minutes less the 4 ns of the read
of `time.Until`. -/
theorem Reconcile_renewal_requeue_witness :
    (findClaim readyWorld exRequest = some exClaim
      ∧ ⟨Op.GetCert, none⟩ ∈ (Reconcile {} exClock readyWorld exRequest).calls
      ∧ ⟨Op.UpdateStatus, none⟩ ∈ (Reconcile {} exClock readyWorld exRequest).calls
      ∧ (findClaim (Reconcile {} exClock readyWorld exRequest).world exRequest).map
          (fun c => c.Status.ExpiresAt) = some (some 1700003600000000000)
      ∧ exClock 3 = 1700000000000000003 ∧ exClock 4 = 1700000000000000004
      ∧ (Reconcile {} exClock readyWorld exRequest).result.RequeueAfter = 50 * Minute - 4)
    ∧ ((Reconcile {} exClock readyWorld exRequest).err = none
      ∧ ∃ c1, findClaim (Reconcile {} exClock readyWorld exRequest).world exRequest = some c1
        ∧ (∀ t, c1.Status.ExpiresAt = some t → exClock 3 < t - 10 * Minute →
            (Reconcile {} exClock readyWorld exRequest).result.RequeueAfter
                = max minDuration (min (t - 10 * Minute - exClock 4) maxDuration)
              ∧ (exClock 4 < t - 10 * Minute →
                  0 < (Reconcile {} exClock readyWorld exRequest).result.RequeueAfter))
        ∧ (∀ t, c1.Status.ExpiresAt = some t → ¬ exClock 3 < t - 10 * Minute →
            (Reconcile {} exClock readyWorld exRequest).result.RequeueAfter = 30 * Minute)
        ∧ (c1.Status.ExpiresAt = none →
            (Reconcile {} exClock readyWorld exRequest).result.RequeueAfter = 30 * Minute)
        ∧ (0 : Duration) < 30 * Minute) :=
  ⟨⟨by decide, by decide, by decide, by decide, by decide, by decide, by decide⟩,
    Reconcile_renewal_requeue {} exClock readyWorld exRequest exClaim readyCert
      (by decide) (by decide) (by decide) (by decide) (by decide)⟩

/-! ## C11 -/

/-- The status recorded for a failed create-or-update of the certificate. -/
theorem failed_status (claim1 : IdentityClaim) (msg : String) (now : Time) :
    (setCondition { claim1 with Status := { claim1.Status with Phase := PhaseFailed } }
        ConditionCertificateIssued ConditionFalse "CertificateFailed" msg now).Status.Phase
        = PhaseFailed
      ∧ ∃ cond, FindStatusCondition
          (setCondition { claim1 with Status := { claim1.Status with Phase := PhaseFailed } }
            ConditionCertificateIssued ConditionFalse "CertificateFailed" msg
            now).Status.Conditions ConditionCertificateIssued = some cond
        ∧ cond.Status = ConditionFalse ∧ cond.Reason = "CertificateFailed"
        ∧ cond.Message = msg := by
  refine ⟨rfl, ?_⟩
  obtain ⟨c, hc, -, h1, h2, h3, -⟩ := FindStatusCondition_SetStatusCondition
    claim1.Status.Conditions
    { Type_ := ConditionCertificateIssued, Status := ConditionFalse,
      ObservedGeneration := claim1.Generation, Reason := "CertificateFailed",
      Message := msg, LastTransitionTime := now }
  exact ⟨c, hc, h1, h2, h3⟩

/-- The outcome of a pass whose create-or-update call failed, given what the
status update answered. -/
theorem failed_upsert_outcome (w w1 : World) (req : NamespacedName) (calls1 : List Call)
    (err e : Err) (se : Option Err) (c : IdentityClaim) (o : Outcome)
    (ho : (⟨w1, ⟨Op.GetClaim, none⟩ :: calls1
              ++ [⟨Op.CreateOrUpdateCert, some err⟩, ⟨Op.UpdateStatus, se⟩],
            {}, some err, some c⟩ : Outcome) = o)
    (hcalls1 : calls1 = [⟨Op.ListPods, none⟩])
    (hcall : ⟨Op.CreateOrUpdateCert, some e⟩ ∈ o.calls)
    (hc : c.Status.Phase = PhaseFailed
      ∧ ∃ cond, FindStatusCondition c.Status.Conditions ConditionCertificateIssued = some cond
        ∧ cond.Status = ConditionFalse ∧ cond.Reason = "CertificateFailed"
        ∧ cond.Message = err.Message)
    (hstored : se = none → findClaim w1 req = some c)
    (hkept : se ≠ none → w1 = w) :
    o.err = some e
      ∧ (o.calls.filter (fun x => decide (x.op = Op.UpdateStatus))).length = 1
      ∧ (∃ c1, o.claim = some c1 ∧ c1.Status.Phase = PhaseFailed
          ∧ ∃ cond, FindStatusCondition c1.Status.Conditions ConditionCertificateIssued
                = some cond
            ∧ cond.Status = ConditionFalse ∧ cond.Reason = "CertificateFailed"
            ∧ cond.Message = e.Message)
      ∧ (⟨Op.UpdateStatus, none⟩ ∈ o.calls →
          ∃ stored, findClaim o.world req = some stored ∧ stored.Status.Phase = PhaseFailed
            ∧ ∃ cond, FindStatusCondition stored.Status.Conditions ConditionCertificateIssued
                  = some cond
              ∧ cond.Status = ConditionFalse ∧ cond.Reason = "CertificateFailed"
              ∧ cond.Message = e.Message)
      ∧ (∀ statusErr, ⟨Op.UpdateStatus, some statusErr⟩ ∈ o.calls → o.world = w) := by
  subst ho hcalls1
  have he : err = e := by
    simp at hcall
    exact hcall.symm
  subst he
  refine ⟨rfl, ?_, ⟨c, rfl, hc⟩, ?_, ?_⟩
  · simp
  · intro h
    have hse : se = none := by
      simp at h
      exact h.symm
    exact ⟨c, hstored hse, hc⟩
  · intro statusErr h
    have hse : se ≠ none := by
      simp at h
      rw [← h]
      simp
    exact hkept hse

/-- The failure exit of the pass when the status update fails too. -/
theorem Reconcile_failed_upsert_unsaved (f : Faults) (clock : Nat → Time) (w : World)
    (req : NamespacedName) (claim : IdentityClaim) (n : Nat) (calls1 : List Call)
    (err statusErr e : Err) (o : Outcome)
    (hv : verifyMatchingPods f w claim = (.ok n, calls1))
    (ho : (⟨w, ⟨Op.GetClaim, none⟩ :: calls1
              ++ [⟨Op.CreateOrUpdateCert, some err⟩, ⟨Op.UpdateStatus, some statusErr⟩],
            {}, some err,
            some (setCondition
              { setCondition claim ConditionPodsVerified ConditionTrue "PodsFound"
                  ("Found " ++ toString n ++ " matching pod(s)") (clock 0) with
                Status :=
                  { (setCondition claim ConditionPodsVerified ConditionTrue "PodsFound"
                      ("Found " ++ toString n ++ " matching pod(s)") (clock 0)).Status with
                    Phase := PhaseFailed } }
              ConditionCertificateIssued ConditionFalse "CertificateFailed" err.Message
              (clock 1))⟩ : Outcome) = o)
    (hcall : ⟨Op.CreateOrUpdateCert, some e⟩ ∈ o.calls) :
    o.err = some e
      ∧ (o.calls.filter (fun x => decide (x.op = Op.UpdateStatus))).length = 1
      ∧ (∃ c1, o.claim = some c1 ∧ c1.Status.Phase = PhaseFailed
          ∧ ∃ cond, FindStatusCondition c1.Status.Conditions ConditionCertificateIssued
                = some cond
            ∧ cond.Status = ConditionFalse ∧ cond.Reason = "CertificateFailed"
            ∧ cond.Message = e.Message)
      ∧ (⟨Op.UpdateStatus, none⟩ ∈ o.calls →
          ∃ stored, findClaim o.world req = some stored ∧ stored.Status.Phase = PhaseFailed
            ∧ ∃ cond, FindStatusCondition stored.Status.Conditions ConditionCertificateIssued
                  = some cond
              ∧ cond.Status = ConditionFalse ∧ cond.Reason = "CertificateFailed"
              ∧ cond.Message = e.Message)
      ∧ (∀ statusErr, ⟨Op.UpdateStatus, some statusErr⟩ ∈ o.calls → o.world = w) := by
  obtain ⟨_, _, _, _, hcalls1⟩ := verifyMatchingPods_ok_iff.mp hv
  exact failed_upsert_outcome w w req calls1 err e (some statusErr) _ o ho hcalls1 hcall
    (failed_status _ _ _) (by intro h; cases h) (fun _ => rfl)

/-- The failure exit of the pass when the status update succeeds. -/
theorem Reconcile_failed_upsert_saved (f : Faults) (clock : Nat → Time) (w w1 : World)
    (req : NamespacedName) (claim claim4 : IdentityClaim) (n : Nat) (calls1 : List Call)
    (err e : Err) (o : Outcome)
    (hg : getClaim f w req = .ok claim)
    (hv : verifyMatchingPods f w claim = (.ok n, calls1))
    (hu : updateStatus f w
      (setCondition
        { setCondition claim ConditionPodsVerified ConditionTrue "PodsFound"
            ("Found " ++ toString n ++ " matching pod(s)") (clock 0) with
          Status :=
            { (setCondition claim ConditionPodsVerified ConditionTrue "PodsFound"
                ("Found " ++ toString n ++ " matching pod(s)") (clock 0)).Status with
              Phase := PhaseFailed } }
        ConditionCertificateIssued ConditionFalse "CertificateFailed" err.Message (clock 1))
      = .ok (claim4, w1))
    (ho : (⟨w1, ⟨Op.GetClaim, none⟩ :: calls1
              ++ [⟨Op.CreateOrUpdateCert, some err⟩, ⟨Op.UpdateStatus, none⟩],
            {}, some err, some claim4⟩ : Outcome) = o)
    (hcall : ⟨Op.CreateOrUpdateCert, some e⟩ ∈ o.calls) :
    o.err = some e
      ∧ (o.calls.filter (fun x => decide (x.op = Op.UpdateStatus))).length = 1
      ∧ (∃ c1, o.claim = some c1 ∧ c1.Status.Phase = PhaseFailed
          ∧ ∃ cond, FindStatusCondition c1.Status.Conditions ConditionCertificateIssued
                = some cond
            ∧ cond.Status = ConditionFalse ∧ cond.Reason = "CertificateFailed"
            ∧ cond.Message = e.Message)
      ∧ (⟨Op.UpdateStatus, none⟩ ∈ o.calls →
          ∃ stored, findClaim o.world req = some stored ∧ stored.Status.Phase = PhaseFailed
            ∧ ∃ cond, FindStatusCondition stored.Status.Conditions ConditionCertificateIssued
                  = some cond
              ∧ cond.Status = ConditionFalse ∧ cond.Reason = "CertificateFailed"
              ∧ cond.Message = e.Message)
      ∧ (∀ statusErr, ⟨Op.UpdateStatus, some statusErr⟩ ∈ o.calls → o.world = w) := by
  have hkey := (getClaim_ok_iff.mp hg).2
  obtain ⟨_, _, _, _, hcalls1⟩ := verifyMatchingPods_ok_iff.mp hv
  obtain ⟨_, stored, hst, hsk, hc4, hw1⟩ := updateStatus_ok_iff.mp hu
  simp only [key_with_Status, setCondition_key] at hst hsk
  rw [hkey.2] at hst hsk
  refine failed_upsert_outcome w w1 req calls1 err e none claim4 o ho hcalls1 hcall
    (by rw [hc4]; exact failed_status _ _ _)
    (fun _ => ?_) (fun h => absurd rfl h)
  rw [hw1, findClaim_putClaim, key_with_Status, if_pos hsk, hst, hc4]
  rfl

set_option maxHeartbeats 2000000 in
/-- C11: in every pass of Reconcile whose certificate create-or-update call fails
with error e (the call is made only for an initialized claim with at least one
matching pod), the pass returns exactly e and makes exactly one status update
call; the claim it sends there has phase Failed and condition CertificateIssued
with status False, reason CertificateFailed and the text of e as message. When
the status update succeeds that status is the stored one; when it fails the
store is as before the pass, and e is returned all the same. -/
theorem Reconcile_certificate_failure (f : Faults) (clock : Nat → Time) (w : World)
    (req : NamespacedName) (e : Err)
    (hcall : ⟨Op.CreateOrUpdateCert, some e⟩ ∈ (Reconcile f clock w req).calls) :
    (Reconcile f clock w req).err = some e
      ∧ ((Reconcile f clock w req).calls.filter
          (fun x => decide (x.op = Op.UpdateStatus))).length = 1
      ∧ (∃ c1, (Reconcile f clock w req).claim = some c1 ∧ c1.Status.Phase = PhaseFailed
          ∧ ∃ cond, FindStatusCondition c1.Status.Conditions ConditionCertificateIssued
                = some cond
            ∧ cond.Status = ConditionFalse ∧ cond.Reason = "CertificateFailed"
            ∧ cond.Message = e.Message)
      ∧ (⟨Op.UpdateStatus, none⟩ ∈ (Reconcile f clock w req).calls →
          ∃ stored, findClaim (Reconcile f clock w req).world req = some stored
            ∧ stored.Status.Phase = PhaseFailed
            ∧ ∃ cond, FindStatusCondition stored.Status.Conditions ConditionCertificateIssued
                  = some cond
              ∧ cond.Status = ConditionFalse ∧ cond.Reason = "CertificateFailed"
              ∧ cond.Message = e.Message)
      ∧ (∀ statusErr, ⟨Op.UpdateStatus, some statusErr⟩ ∈ (Reconcile f clock w req).calls →
          (Reconcile f clock w req).world = w) := by
  generalize ho : Reconcile f clock w req = o at *
  unfold Reconcile at ho
  dsimp only at ho
  split at ho
  · split at ho <;> subst ho <;> simp at hcall
  · rename_i claim hg
    have hkey := (getClaim_ok_iff.mp hg).2
    split at ho
    · subst ho
      exfalso
      have := (reconcileDelete_spec f w claim (by rw [hkey.2]; exact hkey.1)).2.2.2
        Op.CreateOrUpdateCert (some e) (by simpa using hcall)
      simp at this
    · repeat' split at ho
      all_goals first
        | exact Reconcile_failed_upsert_unsaved f clock w req claim _ _ _ _ e o
            (by assumption) ho hcall
        | exact Reconcile_failed_upsert_saved f clock w _ req claim _ _ _ _ e o
            hg (by assumption) (by assumption) ho hcall
        | (subst ho; simp_all; done)
        | (subst ho; simp_all; aesop)

/-- C11, witness: the write of the certificate times out and the status update is
refused; the pass returns the timeout. -/
theorem Reconcile_certificate_failure_witness :
    (⟨Op.CreateOrUpdateCert, some exTimeout⟩ ∈ upsertAndStatusFailOutcome.calls
      ∧ ⟨Op.UpdateStatus, some ⟨StatusReason.Conflict, "the object has been modified"⟩⟩
          ∈ upsertAndStatusFailOutcome.calls)
    ∧ (upsertAndStatusFailOutcome.err = some exTimeout
      ∧ (upsertAndStatusFailOutcome.calls.filter
          (fun x => decide (x.op = Op.UpdateStatus))).length = 1
      ∧ (∃ c1, upsertAndStatusFailOutcome.claim = some c1 ∧ c1.Status.Phase = PhaseFailed
          ∧ ∃ cond, FindStatusCondition c1.Status.Conditions ConditionCertificateIssued
                = some cond
            ∧ cond.Status = ConditionFalse ∧ cond.Reason = "CertificateFailed"
            ∧ cond.Message = exTimeout.Message)
      ∧ (⟨Op.UpdateStatus, none⟩ ∈ upsertAndStatusFailOutcome.calls →
          ∃ stored, findClaim upsertAndStatusFailOutcome.world exRequest = some stored
            ∧ stored.Status.Phase = PhaseFailed
            ∧ ∃ cond, FindStatusCondition stored.Status.Conditions ConditionCertificateIssued
                  = some cond
              ∧ cond.Status = ConditionFalse ∧ cond.Reason = "CertificateFailed"
              ∧ cond.Message = exTimeout.Message)
      ∧ (∀ statusErr, ⟨Op.UpdateStatus, some statusErr⟩ ∈ upsertAndStatusFailOutcome.calls →
          upsertAndStatusFailOutcome.world = exWorld)) :=
  ⟨⟨by decide, by decide⟩,
    Reconcile_certificate_failure _ exClock exWorld exRequest exTimeout (by decide)⟩

/-! ## C12 -/

/-- The status recorded while the certificate is not ready. -/
theorem issuing_status (claim1 : IdentityClaim) (msg : String) (now : Time) :
    (setCondition { claim1 with Status := { claim1.Status with Phase := PhaseIssuing } }
        ConditionCertificateIssued ConditionFalse "Issuing" msg now).Status.Phase
        = PhaseIssuing
      ∧ ∃ cond, FindStatusCondition
          (setCondition { claim1 with Status := { claim1.Status with Phase := PhaseIssuing } }
            ConditionCertificateIssued ConditionFalse "Issuing" msg
            now).Status.Conditions ConditionCertificateIssued = some cond
        ∧ cond.Status = ConditionFalse ∧ cond.Reason = "Issuing" := by
  refine ⟨rfl, ?_⟩
  obtain ⟨c, hc, -, h1, h2, -, -⟩ := FindStatusCondition_SetStatusCondition
    claim1.Status.Conditions
    { Type_ := ConditionCertificateIssued, Status := ConditionFalse,
      ObservedGeneration := claim1.Generation, Reason := "Issuing",
      Message := msg, LastTransitionTime := now }
  exact ⟨c, hc, h1, h2⟩

/-- The two exits of the pass that wait for the certificate: what is stored when
the status update succeeds. -/
theorem Reconcile_issuing_stored (f : Faults) (clock : Nat → Time) (w w1 w2 : World)
    (req : NamespacedName) (claim claim4 : IdentityClaim) (n : Nat) (msg : String)
    (hg : getClaim f w req = .ok claim)
    (hrc : reconcileCertificate f w
        (setCondition claim ConditionPodsVerified ConditionTrue "PodsFound"
          ("Found " ++ toString n ++ " matching pod(s)") (clock 0)) = .ok w1)
    (hu : updateStatus f w1
        (setCondition
          { setCondition claim ConditionPodsVerified ConditionTrue "PodsFound"
              ("Found " ++ toString n ++ " matching pod(s)") (clock 0) with
            Status :=
              { (setCondition claim ConditionPodsVerified ConditionTrue "PodsFound"
                  ("Found " ++ toString n ++ " matching pod(s)") (clock 0)).Status with
                Phase := PhaseIssuing } }
          ConditionCertificateIssued ConditionFalse "Issuing" msg (clock 1))
        = .ok (claim4, w2)) :
    (none : Option Err) = none
      ∧ ({ RequeueAfter := 5 * Second } : Result)
          = { Requeue := false, RequeueAfter := 5 * Second }
      ∧ ∃ stored, findClaim w2 req = some stored
        ∧ stored.Status.Phase = PhaseIssuing
        ∧ ∃ cond, FindStatusCondition stored.Status.Conditions ConditionCertificateIssued
              = some cond
          ∧ cond.Status = ConditionFalse ∧ cond.Reason = "Issuing" := by
  simp only [getClaim_ok_iff] at hg
  obtain ⟨-, hfind, hkey⟩ := hg
  simp only [reconcileCertificate_ok_iff] at hrc
  obtain ⟨certs, hw1, -⟩ := hrc
  simp only [updateStatus_ok_iff, setCondition_key, key_mk, mk_key] at hu
  obtain ⟨-, stored, hst, -, hc4, hw2⟩ := hu
  have hfind1 : findClaim w1 req = some claim := by rw [hw1]; exact hfind
  rw [hkey, hfind1] at hst
  cases hst
  rw [← hc4] at hw2
  have hk4 : claim4.key = req := by rw [hc4]; exact hkey
  refine ⟨rfl, rfl, claim4, ?_, ?_⟩
  · rw [hw2, findClaim_putClaim, if_pos hk4, hfind1]; rfl
  · rw [hc4]
    exact issuing_status _ _ _

set_option maxHeartbeats 2000000 in
/-- C12: in every pass of Reconcile that, after a successful create-or-update of
the certificate, fetches the certificate and either gets a not-found answer or
gets a certificate with no Ready condition of status True, and whose status
update succeeds, the stored status has phase Issuing and condition
CertificateIssued with status False and reason Issuing, and the pass returns no
error with RequeueAfter exactly 5 seconds. -/
theorem Reconcile_certificate_not_ready (f : Faults) (clock : Nat → Time) (w : World)
    (req : NamespacedName) (c0 : IdentityClaim)
    (h0 : findClaim w req = some c0)
    (hupsert : ⟨Op.CreateOrUpdateCert, none⟩ ∈ (Reconcile f clock w req).calls)
    (hfetch : (∃ err, ⟨Op.GetCert, some err⟩ ∈ (Reconcile f clock w req).calls
          ∧ IsNotFound err = true)
      ∨ (⟨Op.GetCert, none⟩ ∈ (Reconcile f clock w req).calls
          ∧ ∃ cert, findCert (Reconcile f clock w req).world
                ⟨c0.Namespace, c0.Status.SecretName⟩ = some cert
            ∧ cert.Status.Conditions.any (fun cond =>
                decide (cond.Type_ = CertificateConditionReady)
                  && decide (cond.Status = ConditionTrue)) = false))
    (hpersisted : ⟨Op.UpdateStatus, none⟩ ∈ (Reconcile f clock w req).calls) :
    (Reconcile f clock w req).err = none
      ∧ (Reconcile f clock w req).result = { Requeue := false, RequeueAfter := 5 * Second }
      ∧ ∃ stored, findClaim (Reconcile f clock w req).world req = some stored
        ∧ stored.Status.Phase = PhaseIssuing
        ∧ ∃ cond, FindStatusCondition stored.Status.Conditions ConditionCertificateIssued
              = some cond
          ∧ cond.Status = ConditionFalse ∧ cond.Reason = "Issuing" := by
  generalize ho : Reconcile f clock w req = o at *
  unfold Reconcile at ho
  dsimp only at ho
  split at ho
  · split at ho <;> subst ho <;> simp at hpersisted
  · rename_i claim hg
    split at ho
    · subst ho
      exfalso
      have hkey := (getClaim_ok_iff.mp hg).2
      have := (reconcileDelete_spec f w claim (by rw [hkey.2]; exact hkey.1)).2.2.2
        Op.UpdateStatus none (by simpa using hpersisted)
      simp at this
    · repeat' split at ho
      all_goals subst ho
      all_goals first
        | exact Reconcile_issuing_stored f clock w _ _ req _ _ _ _
            hg (by assumption) (by assumption)
        | (simp_all; done)
        | (simp_all; aesop)

/-- C12, witness: the certificate of the example was created by an earlier pass
and is not ready yet. -/
theorem Reconcile_certificate_not_ready_witness :
    (findClaim issuingWorld exRequest = some exClaim
      ∧ ⟨Op.CreateOrUpdateCert, none⟩ ∈ (Reconcile {} exClock issuingWorld exRequest).calls
      ∧ ⟨Op.GetCert, none⟩ ∈ (Reconcile {} exClock issuingWorld exRequest).calls
      ∧ findCert (Reconcile {} exClock issuingWorld exRequest).world
          ⟨exClaim.Namespace, exClaim.Status.SecretName⟩ = some exCert
      ∧ ⟨Op.UpdateStatus, none⟩ ∈ (Reconcile {} exClock issuingWorld exRequest).calls)
    ∧ ((Reconcile {} exClock issuingWorld exRequest).err = none
      ∧ (Reconcile {} exClock issuingWorld exRequest).result
          = { Requeue := false, RequeueAfter := 5 * Second }
      ∧ ∃ stored, findClaim (Reconcile {} exClock issuingWorld exRequest).world exRequest
            = some stored
        ∧ stored.Status.Phase = PhaseIssuing
        ∧ ∃ cond, FindStatusCondition stored.Status.Conditions ConditionCertificateIssued
              = some cond
          ∧ cond.Status = ConditionFalse ∧ cond.Reason = "Issuing") :=
  ⟨⟨by decide, by decide, by decide, by decide, by decide⟩,
    Reconcile_certificate_not_ready {} exClock issuingWorld exRequest exClaim
      (by decide) (by decide)
      (Or.inr ⟨by decide, exCert, by decide, by decide⟩) (by decide)⟩

/-! ## C13 -/

/-- What `SetStatusCondition` does to a list whose only entry of the type is at
position `i`: that entry is overwritten in place, the transition time only when
the status differs; the length and every other position are kept. -/
theorem SetStatusCondition_at (cs : List Condition) (n : Condition) (i : Nat) (c : Condition)
    (hi : cs[i]? = some c) (hT : c.Type_ = n.Type_)
    (hone : ∀ j d, cs[j]? = some d → d.Type_ = n.Type_ → j = i) :
    (SetStatusCondition cs n)[i]?
        = some { c with
            Status := n.Status
            LastTransitionTime :=
              if c.Status ≠ n.Status then n.LastTransitionTime else c.LastTransitionTime
            Reason := n.Reason
            Message := n.Message
            ObservedGeneration := n.ObservedGeneration }
      ∧ (SetStatusCondition cs n).length = cs.length
      ∧ ∀ j, j ≠ i → (SetStatusCondition cs n)[j]? = cs[j]? := by
  induction cs generalizing i with
  | nil => simp at hi
  | cons a t ih =>
    unfold SetStatusCondition
    by_cases ha : a.Type_ = n.Type_
    · have h0 : 0 = i := hone 0 a (by simp) ha
      subst h0
      simp only [List.getElem?_cons_zero, Option.some.injEq] at hi
      subst hi
      simp only [ha, if_true]
      refine ⟨by simp, by simp, ?_⟩
      intro j hj
      cases j with
      | zero => exact absurd rfl hj
      | succ m => simp
    · simp only [ha, if_false]
      cases i with
      | zero =>
        simp only [List.getElem?_cons_zero, Option.some.injEq] at hi
        subst hi
        exact absurd hT ha
      | succ k =>
        simp only [List.getElem?_cons_succ] at hi
        obtain ⟨h1, h2, h3⟩ := ih k hi (fun j d hj hd => by
          have := hone (j + 1) d (by simpa using hj) hd
          omega)
        refine ⟨by simpa using h1, by simp [h2], ?_⟩
        intro j hj
        cases j with
        | zero => simp
        | succ m =>
          simp only [List.getElem?_cons_succ]
          exact h3 m (by omega)

/-- C13: when the conditions of a claim hold one entry of type T, at position i,
setCondition with type T overwrites the status, reason, message and observed
generation of that entry in place; its lastTransitionTime is kept when the new
status equals the current one and is replaced by the fresh timestamp when it
differs, so (the fresh timestamp being another instant than the old one) it
changes if and only if the status differs; the list keeps its length and every
other entry, and still holds one entry of type T, at position i. -/
theorem setCondition_transition_time (claim : IdentityClaim)
    (T status reason message : String) (now : Time) (i : Nat) (c : Condition)
    (hi : claim.Status.Conditions[i]? = some c) (hT : c.Type_ = T)
    (hone : ∀ j d, claim.Status.Conditions[j]? = some d → d.Type_ = T → j = i) :
    ∃ c1, (setCondition claim T status reason message now).Status.Conditions[i]? = some c1
      ∧ c1.Type_ = T ∧ c1.Status = status ∧ c1.Reason = reason ∧ c1.Message = message
      ∧ c1.ObservedGeneration = claim.Generation
      ∧ (c.Status = status → c1.LastTransitionTime = c.LastTransitionTime)
      ∧ (c.Status ≠ status → c1.LastTransitionTime = now)
      ∧ (now ≠ c.LastTransitionTime →
          (c1.LastTransitionTime ≠ c.LastTransitionTime ↔ c.Status ≠ status))
      ∧ (setCondition claim T status reason message now).Status.Conditions.length
          = claim.Status.Conditions.length
      ∧ (∀ j, j ≠ i →
          (setCondition claim T status reason message now).Status.Conditions[j]?
            = claim.Status.Conditions[j]?)
      ∧ (∀ j d, (setCondition claim T status reason message now).Status.Conditions[j]? = some d →
          d.Type_ = T → j = i) := by
  obtain ⟨h1, h2, h3⟩ := SetStatusCondition_at claim.Status.Conditions
    { Type_ := T, Status := status, ObservedGeneration := claim.Generation, Reason := reason,
      Message := message, LastTransitionTime := now } i c hi hT hone
  rw [setCondition_Conditions]
  refine ⟨_, h1, hT, rfl, rfl, rfl, rfl, ?_, ?_, ?_, h2, h3, ?_⟩
  · intro hs
    simp [hs]
  · intro hs
    simp [hs]
  · intro hfresh
    by_cases hs : c.Status = status
    · simp [hs]
    · simp [hs, hfresh]
  · intro j d hj hd
    by_cases hji : j = i
    · exact hji
    · rw [h3 j hji] at hj
      exact hone j d hj hd

/-- C13, witness: the Ready claim of the example holds one CertificateIssued entry,
at position 1, set to True at the second clock read of the pass; setting it to
False replaces the transition time, setting it to True again keeps it. -/
theorem setCondition_transition_time_witness :
    (readyClaim.Status.Conditions[1]?
        = some { Type_ := ConditionCertificateIssued, Status := ConditionTrue,
                 ObservedGeneration := 1, LastTransitionTime := 1700000000000000001,
                 Reason := "Issued", Message := "Certificate has been issued" }
      ∧ (setCondition readyClaim ConditionCertificateIssued ConditionTrue "Issued"
            "Certificate has been issued" 1700000060000000000).Status.Conditions
          = readyClaim.Status.Conditions)
    ∧ ∃ c1, (setCondition readyClaim ConditionCertificateIssued ConditionFalse "Issuing"
          "Certificate is being issued" 1700000060000000000).Status.Conditions[1]? = some c1
      ∧ c1.Type_ = ConditionCertificateIssued ∧ c1.Status = ConditionFalse
      ∧ c1.Reason = "Issuing" ∧ c1.Message = "Certificate is being issued"
      ∧ c1.ObservedGeneration = readyClaim.Generation
      ∧ (ConditionTrue = ConditionFalse → c1.LastTransitionTime = 1700000000000000001)
      ∧ (ConditionTrue ≠ ConditionFalse → c1.LastTransitionTime = 1700000060000000000)
      ∧ ((1700000060000000000 : Time) ≠ 1700000000000000001 →
          (c1.LastTransitionTime ≠ 1700000000000000001 ↔ ConditionTrue ≠ ConditionFalse))
      ∧ (setCondition readyClaim ConditionCertificateIssued ConditionFalse "Issuing"
          "Certificate is being issued" 1700000060000000000).Status.Conditions.length
          = readyClaim.Status.Conditions.length
      ∧ (∀ j, j ≠ 1 →
          (setCondition readyClaim ConditionCertificateIssued ConditionFalse "Issuing"
            "Certificate is being issued" 1700000060000000000).Status.Conditions[j]?
            = readyClaim.Status.Conditions[j]?)
      ∧ (∀ j d, (setCondition readyClaim ConditionCertificateIssued ConditionFalse "Issuing"
            "Certificate is being issued" 1700000060000000000).Status.Conditions[j]? = some d →
          d.Type_ = ConditionCertificateIssued → j = 1) :=
  ⟨⟨by decide, by decide⟩,
    setCondition_transition_time readyClaim ConditionCertificateIssued ConditionFalse "Issuing"
      "Certificate is being issued" 1700000060000000000 1
      { Type_ := ConditionCertificateIssued, Status := ConditionTrue,
        ObservedGeneration := 1, LastTransitionTime := 1700000000000000001,
        Reason := "Issued", Message := "Certificate has been issued" }
      (by decide) (by decide)
      (by
        intro j d hj hd
        match j, hj with
        | 0, hj => simp [readyClaim] at hj; subst hj; revert hd; decide
        | 1, _ => rfl
        | 2, hj => simp [readyClaim] at hj; subst hj; revert hd; decide
        | (k + 3), hj => simp [readyClaim] at hj)⟩

/-! ## C14 -/

@[simp]
theorem ReadyTrue_set_PodsVerified (cs : List Condition) (st r m : String) (g : Int)
    (now : Time) :
    ReadyTrue (SetStatusCondition cs
      { Type_ := ConditionPodsVerified, Status := st, ObservedGeneration := g,
        LastTransitionTime := now, Reason := r, Message := m }) ↔ ReadyTrue cs := by
  unfold ReadyTrue
  rw [FindStatusCondition_SetStatusCondition_ne cs _ ConditionReady
    (by dsimp only; decide)]

@[simp]
theorem ReadyTrue_set_CertificateIssued (cs : List Condition) (st r m : String) (g : Int)
    (now : Time) :
    ReadyTrue (SetStatusCondition cs
      { Type_ := ConditionCertificateIssued, Status := st, ObservedGeneration := g,
        LastTransitionTime := now, Reason := r, Message := m }) ↔ ReadyTrue cs := by
  unfold ReadyTrue
  rw [FindStatusCondition_SetStatusCondition_ne cs _ ConditionReady
    (by dsimp only; decide)]

@[simp]
theorem ReadyTrue_set_Ready (cs : List Condition) (r m : String) (g : Int) (now : Time) :
    ReadyTrue (SetStatusCondition cs
      { Type_ := ConditionReady, Status := ConditionTrue, ObservedGeneration := g,
        LastTransitionTime := now, Reason := r, Message := m }) := by
  obtain ⟨c, hc, -, h1, -⟩ := FindStatusCondition_SetStatusCondition cs
    { Type_ := ConditionReady, Status := ConditionTrue, ObservedGeneration := g,
      LastTransitionTime := now, Reason := r, Message := m }
  exact ⟨c, hc, h1⟩

set_option maxHeartbeats 2000000 in
/-- The claim in memory after a pass keeps a Ready entry with status True that
the stored claim had. -/
theorem Reconcile_claim_ReadyTrue (f : Faults) (clock : Nat → Time) (w : World)
    (req : NamespacedName) :
    ∀ c1, (Reconcile f clock w req).claim = some c1 →
      ∃ c, findClaim w req = some c ∧ c1.key = req
        ∧ (ReadyTrue c.Status.Conditions → ReadyTrue c1.Status.Conditions) := by
  generalize ho : Reconcile f clock w req = o at *
  unfold Reconcile at ho
  dsimp only at ho
  split at ho
  · split at ho <;> subst ho <;> simp
  · rename_i claim hg
    have hkey := (getClaim_ok_iff.mp hg).2
    split at ho
    · subst ho
      intro c1 hc1
      obtain ⟨hns, hn, hs⟩ := reconcileDelete_claim f w claim (by rw [hkey.2]; exact hkey.1)
        c1 hc1
      refine ⟨claim, hkey.1, ?_, ?_⟩
      · rw [← hkey.2]
        unfold IdentityClaim.key
        rw [hns, hn]
      · rw [hs]
        exact id
    · repeat' split at ho
      all_goals subst ho
      all_goals first
        | (simp_all; done)
        | (simp_all; aesop)

/-- C14: when the stored claim holds a Ready entry with status True, after any
pass of Reconcile, whatever its outcome, the claim still stored under that name
holds a Ready entry with status True, and so does the claim of the pass in
memory; and there is a pass that leaves a stored claim with a Ready entry of
status True in phase Failed, so the entry does not imply phase Ready. -/
theorem Reconcile_keeps_Ready_True (f : Faults) (clock : Nat → Time) (w : World)
    (req k : NamespacedName) (c0 : IdentityClaim)
    (h0 : findClaim w k = some c0)
    (hready : ReadyTrue c0.Status.Conditions) :
    (∀ c1, findClaim (Reconcile f clock w req).world k = some c1 →
        ReadyTrue c1.Status.Conditions)
      ∧ (k = req → ∀ c1, (Reconcile f clock w req).claim = some c1 →
          ReadyTrue c1.Status.Conditions)
      ∧ ∃ f1 clock1 w1 req1,
          (findClaim w1 req1).map
              (fun c => (FindStatusCondition c.Status.Conditions ConditionReady).map
                (fun cond => cond.Status)) = some (some ConditionTrue)
            ∧ (findClaim (Reconcile f1 clock1 w1 req1).world req1).map
                (fun c => (c.Status.Phase,
                  (FindStatusCondition c.Status.Conditions ConditionReady).map
                    (fun cond => cond.Status)))
              = some (PhaseFailed, some ConditionTrue) := by
  have hmem : ∀ c1, (Reconcile f clock w req).claim = some c1 → c1.key = k →
      ReadyTrue c1.Status.Conditions := by
    intro c1 hc1 hk
    obtain ⟨c, hfind, hkey, himp⟩ := Reconcile_claim_ReadyTrue f clock w req c1 hc1
    rw [← hkey, hk, h0] at hfind
    cases hfind
    exact himp hready
  refine ⟨?_, ?_, ?_⟩
  · intro c1 hc1
    rcases Reconcile_world_claims f clock w req with h | ⟨cm, hcm, h⟩
    · rw [findClaim_congr h k, h0] at hc1
      cases hc1
      exact hready
    · rw [findClaim_congr h k, findClaim_putClaim] at hc1
      by_cases hk : cm.key = k
      · rw [if_pos hk, h0] at hc1
        simp only [Option.isSome_some, if_true, Option.some.injEq] at hc1
        subst hc1
        exact hmem cm hcm hk
      · rw [if_neg hk, h0] at hc1
        cases hc1
        exact hready
  · intro hk c1 hc1
    obtain ⟨c, hfind, hkey, himp⟩ := Reconcile_claim_ReadyTrue f clock w req c1 hc1
    exact hmem c1 hc1 (by rw [hkey, hk])
  · exact ⟨{ certUpsertGet := some exTimeout }, laterClock, issuedWorld, exRequest,
      by decide, by decide⟩

/-- C14, witness: the Ready claim of the example, in a pass whose read of the
certificate by the create-or-update call times out: the stored claim is in phase Failed and keeps its Ready
entry with status True. -/
theorem Reconcile_keeps_Ready_True_witness :
    (findClaim issuedWorld exRequest = some readyClaim
      ∧ (findClaim
            (Reconcile { certUpsertGet := some exTimeout } laterClock issuedWorld
              exRequest).world exRequest).map (fun c => c.Status.Phase) = some PhaseFailed)
    ∧ ((∀ c1, findClaim
            (Reconcile { certUpsertGet := some exTimeout } laterClock issuedWorld
              exRequest).world exRequest = some c1 →
          ReadyTrue c1.Status.Conditions)
      ∧ (exRequest = exRequest →
          ∀ c1, (Reconcile { certUpsertGet := some exTimeout } laterClock issuedWorld
              exRequest).claim = some c1 →
            ReadyTrue c1.Status.Conditions)
      ∧ ∃ f1 clock1 w1 req1,
          (findClaim w1 req1).map
              (fun c => (FindStatusCondition c.Status.Conditions ConditionReady).map
                (fun cond => cond.Status)) = some (some ConditionTrue)
            ∧ (findClaim (Reconcile f1 clock1 w1 req1).world req1).map
                (fun c => (c.Status.Phase,
                  (FindStatusCondition c.Status.Conditions ConditionReady).map
                    (fun cond => cond.Status)))
              = some (PhaseFailed, some ConditionTrue)) :=
  ⟨⟨by decide, by decide⟩,
    Reconcile_keeps_Ready_True { certUpsertGet := some exTimeout } laterClock issuedWorld
      exRequest exRequest readyClaim (by decide)
      ⟨{ Type_ := ConditionReady, Status := ConditionTrue, ObservedGeneration := 1,
         LastTransitionTime := 1700000000000000002, Reason := "Ready",
         Message := "Identity is ready for use" }, by decide, by decide⟩⟩

end IdentityClaimOperator
